import Mathlib

/-!
Shallow embedding of the tiktok_slides content-generation core:
the metadata model (`MetadataData`), its validation engine
(`MetadataValidator.validate`), the mutation API (`MetadataEditor`),
the settings resolver (`Generator._get_image_settings`) and the
generation-time selection engine (`Generator._get_available_images`
and the select-and-track step of `Generator._generate_single_image`).

Conventions of the embedding:
* Python dicts are association lists `List (String × α)`; insertion
  order is the list order and `d[k]` is `List.lookup` (first match),
  with a missing key raising `KeyError`, modelled by `Except.error`.
* Filesystem paths are lists of components (`List String`); the
  filesystem itself is passed in explicitly (`FS`).
* Settings blobs are opaque payloads (`Blob := String`); their internal
  structure is checked only by the external `SettingsValidator`
  collaborator, modelled as a pair of functions in the context.
* Python exceptions (KeyError, IndexError, ValueError, PIL errors)
  are `Except.error` with an indicative message; message texts follow
  the source f-strings but are not byte-identical where Python formats
  a list with `repr`.
-/

/-- Settings blob: opaque payload whose internal structure is validated
only by the external `SettingsValidator` collaborator. -/
abbrev Blob := String

structure Dimensions where
  width : Nat
  height : Nat
deriving DecidableEq, Repr

/-- One entry of `metadata["products"][content_type]`
(`{name, prevent_duplicates, min_occurrences, current_count}`). -/
structure Product where
  name : String
  prevent_duplicates : Bool
  min_occurrences : Nat
  current_count : Int
deriving DecidableEq, Repr

/-- One entry of `metadata["images"]`. -/
structure ImageData where
  content_type : String
  dimensions : Dimensions
  product : Option String
  settings_source : String
  settings : Option Blob
deriving DecidableEq, Repr

/-- One entry of `metadata["structure"]` (`{path, images}`). -/
structure StructureInfo where
  path : List String
  images : List String
deriving DecidableEq, Repr

/-- The full metadata aggregate.  `keys` is the top-level key order of
the parsed JSON object (what `list(data.keys())` returns); the other
fields are the values of those keys. -/
structure MetadataData where
  keys : List String
  content_types : List String
  products : List (String × List Product)
  structure_ : List (String × StructureInfo)
  images : List (String × ImageData)
  untagged : List String
  settings : List (String × List (String × Option Blob))
deriving DecidableEq, Repr

/-- Code-point-wise lexicographic `<` on strings, as Python compares
them (written on the character lists so that it evaluates by kernel
reduction). -/
def charListLt : List Char → List Char → Bool
  | [], [] => false
  | [], _ :: _ => true
  | _ :: _, [] => false
  | a :: as, b :: bs =>
    if a < b then true else if b < a then false else charListLt as bs

def pyLt (a b : String) : Bool := charListLt a.toList b.toList

/-- `str.strip()`: drop leading and trailing whitespace. -/
def pyStrip (s : String) : String :=
  String.mk
    (((s.toList.dropWhile Char.isWhitespace).reverse.dropWhile
      Char.isWhitespace).reverse)

/-- `str.split(c)` for a one-character separator (`"".split(c) == [""]`). -/
def splitChar (c : Char) : List Char → List (List Char)
  | [] => [[]]
  | x :: rest =>
    let r := splitChar c rest
    if x == c then [] :: r
    else
      match r with
      | [] => [[x]]
      | h :: t => (x :: h) :: t

def pySplit (c : Char) (s : String) : List String :=
  (splitChar c s.toList).map String.mk

/-- `s[1:-1]`: drop the first and last character. -/
def dropEnds (s : String) : String :=
  String.mk ((s.toList.drop 1).dropLast)

/-- Stable insertion of `x` before the first strictly greater element. -/
def insertLe (x : String) : List String → List String
  | [] => [x]
  | y :: rest => if pyLt x y then x :: y :: rest else y :: insertLe x rest

/-- Python `sorted` / `list.sort()` on strings: stable, ascending by
code points. -/
def sortStrs (l : List String) : List String :=
  l.foldl (fun acc x => insertLe x acc) []

/-- Stable insertion by key for `sorted(dict.items())` (keys are unique
in a parsed JSON object, so comparing keys suffices). -/
def insertByKey {α : Type} (x : String × α) : List (String × α) → List (String × α)
  | [] => [x]
  | y :: rest => if pyLt x.1 y.1 then x :: y :: rest else y :: insertByKey x rest

def sortByKey {α : Type} (l : List (String × α)) : List (String × α) :=
  l.foldl (fun acc x => insertByKey x acc) []

/-- Python truthiness of an optional string (`if prod:`):
`None` and `""` are falsy. -/
def truthyStr : Option String → Bool
  | none => false
  | some s => !(s == "")

/-- `isSortedLe l` models the Python test `l == sorted(l)`: the list
is non-decreasing. -/
def isSortedLe : List String → Bool
  | [] => true
  | [_] => true
  | a :: b :: rest => !(pyLt b a) && isSortedLe (b :: rest)

/-- `set(a) == set(b)` on string lists. -/
def setEqStr (a b : List String) : Bool :=
  a.all (b.contains ·) && b.all (a.contains ·)

/-- Parse a product-group key: `group[1:-1].split(",")`, each entry
stripped.  Note the source drops the first and last character without
checking that they are brackets. -/
def parseGroup (group : String) : List String :=
  (pySplit ',' (dropEnds group)).map pyStrip

/-- `Path(p).name`: the last path component of a slash-separated name
(selection passes bare filenames, for which this is the identity). -/
def pathName (s : String) : String :=
  ((pySplit '/' s).getLast?).getD s

section SelectionEngine

/-!
## SelectionEngine (`src/generation/generate.py`)

`used_images` is the per-post duplicate-prevention exclusion table
`{content_type: {product_name: [images]}}`.  It is rebuilt by
`initUsed` for every post (`Generator.generate`, lines 101-108).
-/

abbrev Used := List (String × List (String × List String))

/-- The per-post initialisation of `used_images`
(`Generator.generate` lines 102-108): one entry per content type, one
empty list per declared product. -/
def initUsedGo (md : MetadataData) : List String → Except String Used
  | [] => Except.ok []
  | ct :: rest =>
    match md.products.lookup ct with
    | none => Except.error ("KeyError: " ++ ct)
    | some prods => do
      let tail ← initUsedGo md rest
      Except.ok ((ct, prods.map fun p => (p.name, ([] : List String))) :: tail)

def initUsed (md : MetadataData) : Except String Used :=
  initUsedGo md md.content_types

/-- `used_images[content_type][product]`. -/
def usedLookup (used : Used) (ct product : String) : Except String (List String) :=
  match used.lookup ct with
  | none => Except.error ("KeyError: " ++ ct)
  | some inner =>
    match inner.lookup product with
    | none => Except.error ("KeyError: " ++ product)
    | some l => Except.ok l

/-- `used_images[content_type][product].append(img)` (mutation in the
source; here a functional update of the first matching entry). -/
def usedAppend (used : Used) (ct product img : String) : Used :=
  used.map fun e =>
    if e.1 = ct then
      (e.1, e.2.map fun q => if q.1 = product then (q.1, q.2 ++ [img]) else q)
    else e

/-- `Generator._should_prevent_duplicates`: strips the product name,
then scans the content type's product list; returns `False` when the
product is not declared; raises `KeyError` when the content type is
missing from `products`. -/
def shouldPreventDuplicates (md : MetadataData) (ct product : String) :
    Except String Bool :=
  let product := pyStrip product
  match md.products.lookup ct with
  | none => Except.error ("KeyError: " ++ ct)
  | some prods =>
    match prods.find? (fun p => p.name == product) with
    | some pi => Except.ok pi.prevent_duplicates
    | none => Except.ok false

/-- `[img for img in imgs if self.metadata.data["images"][img]["product"] == pname]`:
each element's metadata lookup can raise `KeyError`. -/
def filterByProduct (images : List (String × ImageData)) (pname : String) :
    List String → Except String (List String)
  | [] => Except.ok []
  | img :: rest =>
    match images.lookup img with
    | none => Except.error ("KeyError: " ++ img)
    | some d => do
      let tail ← filterByProduct images pname rest
      pure (if d.product == some pname then img :: tail else tail)

/-- `[img for img in imgs if img not in used_images[ct][pname]]`: the
used-list lookup is evaluated once per element, so an empty input never
raises. -/
def excludeUsed (used : Used) (ct pname : String) :
    List String → Except String (List String)
  | [] => Except.ok []
  | img :: rest => do
    let l ← usedLookup used ct pname
    let tail ← excludeUsed used ct pname rest
    pure (if l.contains img then tail else img :: tail)

/-- The wildcard-"all" pool: union over the declared products of the
content type of that product's images, skipping `prevent_duplicates`
products unless `allow_all_duplicates`, and excluding used images of
`prevent_duplicates` products (`_get_available_images` lines 212-244). -/
def allPool (md : MetadataData) (ct : String) (used : Used)
    (allowAll : Bool) (allImages : List String) :
    List Product → Except String (List String)
  | [] => Except.ok []
  | pi :: rest => do
    if pi.prevent_duplicates && !allowAll then
      allPool md ct used allowAll allImages rest
    else do
      let matching ← filterByProduct md.images pi.name allImages
      let matching ←
        if pi.prevent_duplicates then excludeUsed used ct pi.name matching
        else pure matching
      let tail ← allPool md ct used allowAll allImages rest
      pure (matching ++ tail)

/-- `Generator._get_available_images`. -/
def getAvailableImages (md : MetadataData) (ct product : String)
    (used : Used) (allowAll : Bool) : Except String (List String) := do
  let product := pyStrip product
  let allImages ←
    match md.structure_.lookup ct with
    | none => Except.error ("KeyError: " ++ ct)
    | some si => pure si.images
  if product == "all" then
    match md.products.lookup ct with
    | none => Except.error ("KeyError: " ++ ct)
    | some prods => allPool md ct used allowAll allImages prods
  else do
    let available ← filterByProduct md.images product allImages
    let prevent ← shouldPreventDuplicates md ct product
    if prevent then excludeUsed used ct product available
    else pure available

/-- The select-and-track step of `Generator._generate_single_image`
(lines 163-175): build the pool, raise on exhaustion, pick an image
(`random.choice` modelled by an oracle index `pick`, reduced modulo the
pool size), and record it in the exclusion table when the pairing
prevents duplicates.  The tracking key is the *unstripped* product
string (line 175). -/
def selectImage (md : MetadataData) (ct product : String) (used : Used)
    (allowAll : Bool) (pick : Nat) : Except String (String × Used) := do
  let available ← getAvailableImages md ct product used allowAll
  if h : available = [] then
    Except.error ("No available images for " ++ ct ++ " - " ++ product)
  else do
    let selected := available.get ⟨pick % available.length,
      Nat.mod_lt _ (List.length_pos.mpr h)⟩
    let prevent ← shouldPreventDuplicates md ct product
    pure (selected, if prevent then usedAppend used ct product selected else used)

/-- One post of `Generator.generate`: the exclusion table is freshly
initialised, then the post's slots are processed in order, threading
the table (the rendering of each selected image is the out-of-scope
`generate_image` collaborator). -/
def runSlots (md : MetadataData) (allowAll : Bool) :
    List (String × String) → List Nat → Used → Except String (List String)
  | [], _, _ => Except.ok []
  | (ct, product) :: rest, picks, used => do
    let (sel, used') ← selectImage md ct product used allowAll (picks.headD 0)
    let tail ← runSlots md allowAll rest (picks.tail) used'
    pure (sel :: tail)

/-- One post: fresh `used_images`, then the slots. -/
def runPost (md : MetadataData) (allowAll : Bool)
    (slots : List (String × String)) (picks : List Nat) :
    Except String (List String) := do
  let used ← initUsed md
  runSlots md allowAll slots picks used

end SelectionEngine

/-- `e.isOk = false`: the call raised. -/
def isErr {ε α : Type} : Except ε α → Bool
  | Except.error _ => true
  | Except.ok _ => false

section SettingsResolver

/-!
## SettingsResolver (`Generator._get_image_settings`, generate.py 294-362)

The whole body runs inside `try/except`, which wraps any exception into
`ValueError(f"Failed to get settings for {image_name}: ...")`; the
default template is a file read whose outcome is passed in.
-/

/-- Body of `_get_image_settings` before the `except` wrapper. -/
def getImageSettingsInner (md : MetadataData)
    (defaultTemplate : Except String Blob) (ct product image_name : String) :
    Except String Blob := do
  let image_data ←
    match md.images.lookup image_name with
    | none => Except.error ("KeyError: " ++ image_name)
    | some d => pure d
  let settings_source := image_data.settings_source
  if settings_source == "default" then
    defaultTemplate
  else if settings_source == "custom" then
    match image_data.settings with
    | none => Except.error ("Image " ++ image_name ++
        " has custom settings_source but no settings defined")
    | some b => pure b
  else if settings_source == "content" then do
    let ct_settings ←
      match md.settings.lookup ct with
      | none => Except.error ("KeyError: " ++ ct)
      | some l => pure l
    match ct_settings.lookup "content" with
    | none => Except.error "KeyError: content"
    | some none =>
      Except.error ("No content-level settings defined for " ++ ct)
    | some (some b) => pure b
  else if settings_source == "product" then do
    let ct_settings ←
      match md.settings.lookup ct with
      | none => Except.error ("KeyError: " ++ ct)
      | some l => pure l
    -- first group (≠ "content") whose parsed member set contains the
    -- slot product AND whose settings are non-null
    match ct_settings.find? (fun e =>
        e.1 != "content" && (parseGroup e.1).contains product && e.2.isSome) with
    | some (_, some b) => pure b
    | _ => Except.error ("No product settings found for " ++ product ++
        " in " ++ ct)
  else
    Except.error ("Invalid settings_source: " ++ settings_source)

/-- `Generator._get_image_settings`: extract the file name, run the
resolution, and wrap any exception. -/
def getImageSettings (md : MetadataData) (defaultTemplate : Except String Blob)
    (ct product image_path : String) : Except String Blob :=
  let image_name := pathName image_path
  match getImageSettingsInner md defaultTemplate ct product image_name with
  | Except.ok b => Except.ok b
  | Except.error e =>
    Except.error ("Failed to get settings for " ++ image_name ++ ": " ++ e)

end SettingsResolver

section Editor

/-!
## MetadataEditor (`src/content_manager/metadata/metadata_editor.py`)

Python mutates `self.metadata` in place; each operation is modelled as
a function returning the metadata reached when the call returns or
raises, together with the outcome.  A raise after a partial mutation
therefore leaves the partial state visible, exactly as in the source.
-/

/-- `MetadataEditor._update_product_count`: find the content type's
product list (`KeyError` when the content type is absent) and bump the
first product with the given name; silently a no-op when no product
matches. -/
def updateProductCount (md : MetadataData) (ct product : String)
    (increment : Bool) : Except String MetadataData :=
  match md.products.lookup ct with
  | none => Except.error ("KeyError: " ++ ct)
  | some _ =>
    let bump : List Product → List Product := fun ps =>
      match ps.findIdx? (fun p => p.name == product) with
      | none => ps
      | some i => ps.modify (fun p =>
          { p with current_count := p.current_count + (if increment then 1 else -1) }) i
    Except.ok { md with
      products := md.products.map fun e =>
        if e.1 = ct then (e.1, bump e.2) else e }

/-- The partial-update dict passed to `edit_image`: `product`,
`settings_source` and `settings` may each be present or absent. -/
structure EditData where
  product : Option (Option String) := none
  settings_source : Option String := none
  settings : Option (Option Blob) := none
deriving DecidableEq, Repr

/-- `image.update(data)` for the three editable fields. -/
def applyEdit (img : ImageData) (data : EditData) : ImageData :=
  { img with
    product := data.product.getD img.product
    settings_source := data.settings_source.getD img.settings_source
    settings := data.settings.getD img.settings }

/-- `MetadataEditor.edit_image`: validates the image exists; when the
`product` key is present, adjusts the two counts, toggles membership of
`untagged` (append when the new product is `None` and the image is not
yet listed — note: no re-sort — and removal otherwise), then applies
the partial update to the record. -/
def editImage (md : MetadataData) (image_name : String) (data : EditData) :
    MetadataData × Except String Unit :=
  match md.images.lookup image_name with
  | none => (md, Except.error ("Image " ++ image_name ++ " not found"))
  | some image =>
    match data.product with
    | none =>
      -- no "product" key: only the record is updated
      ({ md with images := md.images.map fun e =>
          if e.1 = image_name then (e.1, applyEdit image data) else e },
       Except.ok ())
    | some new_product =>
      let content_type := image.content_type
      let old_product := image.product
      let step1 : Except String MetadataData :=
        if truthyStr old_product then
          updateProductCount md content_type (old_product.getD "") false
        else Except.ok md
      match step1 with
      | Except.error e => (md, Except.error e)
      | Except.ok md1 =>
        let step2 : Except String MetadataData :=
          if truthyStr new_product then
            updateProductCount md1 content_type (new_product.getD "") true
          else Except.ok md1
        match step2 with
        | Except.error e => (md1, Except.error e)
        | Except.ok md2 =>
          let md3 :=
            match new_product with
            | none =>
              if md2.untagged.contains image_name then md2
              else { md2 with untagged := md2.untagged ++ [image_name] }
            | some _ =>
              { md2 with untagged := md2.untagged.filter (· != image_name) }
          ({ md3 with images := md3.images.map fun e =>
              if e.1 = image_name then (e.1, applyEdit image data) else e },
           Except.ok ())

/-- `MetadataEditor.edit_settings`.  `content_type` level replaces the
`"content"` blob; `product` level raises
`NotImplementedError("Product level settings not implemented yet")`
(the merge/split algorithm exists only as comments in the source);
`custom` level requires the image to exist and pins
`settings_source="custom"`. -/
def editSettings (md : MetadataData) (level target : String)
    (data : Option Blob) (content_type : Option String) :
    MetadataData × Except String Unit :=
  if level == "product" && !(truthyStr content_type) then
    (md, Except.error "content_type required for product level settings")
  else if level != "product" && truthyStr content_type then
    (md, Except.error "content_type should only be provided for product level")
  else if level == "content_type" then
    let md1 :=
      if (md.settings.lookup target).isSome then md
      else { md with settings := md.settings ++ [(target, [])] }
    ({ md1 with settings := md1.settings.map fun e =>
        if e.1 = target then
          (e.1, if (e.2.lookup "content").isSome then
              e.2.map fun kv => if kv.1 = "content" then (kv.1, data) else kv
            else e.2 ++ [("content", data)])
        else e },
     Except.ok ())
  else if level == "product" then
    (md, Except.error "NotImplementedError: Product level settings not implemented yet")
  else if level == "custom" then
    match md.images.lookup target with
    | none => (md, Except.error ("Image " ++ target ++ " not found"))
    | some img =>
      ({ md with images := md.images.map fun e =>
          if e.1 = target then
            (e.1, { img with settings_source := "custom", settings := data })
          else e },
       Except.ok ())
  else (md, Except.ok ())

/-- `MetadataEditor.update_image_product`: validates the image exists
and the new product against the product set of the image's *actual*
content type, then adjusts counts through `_update_product_count` using
the *caller-supplied* `content_type`, and finally updates the record. -/
def updateImageProduct (md : MetadataData)
    (image_name content_type new_product : String) :
    MetadataData × Except String Unit :=
  match md.images.lookup image_name with
  | none => (md, Except.error ("Image " ++ image_name ++ " not found"))
  | some img =>
    let actual_content_type := img.content_type
    match md.products.lookup actual_content_type with
    | none => (md, Except.error ("KeyError: " ++ actual_content_type))
    | some valid =>
      if !(valid.map Product.name).contains new_product then
        (md, Except.error ("Invalid product '" ++ new_product ++
          "' for content type '" ++ actual_content_type ++ "'"))
      else
        let old_product := img.product
        let step1 : Except String MetadataData :=
          if truthyStr old_product then
            updateProductCount md content_type (old_product.getD "") false
          else Except.ok md
        match step1 with
        | Except.error e => (md, Except.error e)
        | Except.ok md1 =>
          match updateProductCount md1 content_type new_product true with
          | Except.error e => (md1, Except.error e)
          | Except.ok md2 =>
            ({ md2 with images := md2.images.map fun e =>
                if e.1 = image_name then
                  (e.1, { img with product := some new_product })
                else e },
             Except.ok ())

/-!
### `move_untagged_image` and the filesystem

The filesystem is a list of existing files; image files carry the pixel
dimensions PIL would report (`none` for a file PIL cannot open).
`metadataWrites` records the metadata.json full-file rewrites.
-/

structure FS where
  files : List (List String × Option Dimensions)
  metadataWrites : List (List String × MetadataData)
deriving DecidableEq, Repr

def FS.exists_ (fs : FS) (p : List String) : Bool :=
  (fs.files.lookup p).isSome

/-- `src.rename(dest)`: the entry moves, keeping its content. -/
def FS.rename (fs : FS) (src dest : List String) : FS :=
  { fs with files := fs.files.map fun e => if e.1 = src then (dest, e.2) else e }

/-- `MetadataEditor.move_untagged_image`: the four preconditions
(untagged membership, valid content type, source exists, destination
does not) are all checked before the rename; afterwards the structure
list, the image record table and the untagged list are updated and
re-sorted and the whole store is persisted.  The `try/except` wrapper
re-raises everything as `ValueError(f"Failed to move image: ...")`. -/
def moveUntaggedImage (md : MetadataData) (fs : FS)
    (image_name target_content_type : String) :
    MetadataData × FS × Except String Unit :=
  let wrap := fun (e : String) => "Failed to move image: " ++ e
  if !(md.untagged.contains image_name) then
    (md, fs, Except.error (wrap ("Image " ++ image_name ++ " not in untagged list")))
  else if !(md.content_types.contains target_content_type) then
    (md, fs, Except.error (wrap ("Invalid content type: " ++ target_content_type)))
  else
    match md.structure_.lookup target_content_type with
    | none => (md, fs, Except.error (wrap ("KeyError: " ++ target_content_type)))
    | some si =>
      let target_path := si.path
      let base_path := target_path.dropLast
      let src_path := base_path ++ [image_name]
      let dest_path := target_path ++ [image_name]
      if !(fs.exists_ src_path) then
        (md, fs, Except.error (wrap "Source file not found"))
      else if fs.exists_ dest_path then
        (md, fs, Except.error (wrap "Destination file already exists"))
      else
        -- all preconditions hold: rename, then mutate the store
        let fs1 := fs.rename src_path dest_path
        let md1 := { md with structure_ := md.structure_.map fun e =>
          if e.1 = target_content_type then
            (e.1, { e.2 with images := sortStrs (e.2.images ++ [image_name]) })
          else e }
        match fs1.files.lookup dest_path with
        | none => (md1, fs1, Except.error (wrap "PIL cannot open file"))
        | some none => (md1, fs1, Except.error (wrap "PIL cannot identify image"))
        | some (some dims) =>
          let record : ImageData :=
            { content_type := target_content_type
              dimensions := dims
              product := none
              settings_source := "default"
              settings := none }
          let md2 := { md1 with
            images := sortByKey (md1.images ++ [(image_name, record)]) }
          -- `untagged.remove(name)` drops the first occurrence, then sorts
          let md3 := { md2 with
            untagged := sortStrs (md2.untagged.erase image_name) }
          let fs2 := { fs1 with
            metadataWrites := fs1.metadataWrites ++
              [(base_path ++ ["metadata.json"], md3)] }
          (md3, fs2, Except.ok ())

end Editor

section Validator

/-!
## MetadataValidator (`src/content_manager/metadata/metadata_validator.py`)

The validator instance state (`errors`, `warnings`, `seen_warnings`) is
threaded explicitly (`VState`); the filesystem, the external
`SettingsValidator` collaborator and the caption-source read are passed
in a context (`VCtx`).  Each `_validate_*` method is a function from
the data and state to `Except String (Bool × VState)` — `Except.error`
models an uncaught Python exception (KeyError/IndexError). -/

structure VState where
  errors : List String
  warnings : List String
  seen_warnings : List String
deriving DecidableEq, Repr

structure VCtx where
  strict : Bool
  fs_exists : List String → Bool
  fs_imageSize : List String → Option Dimensions
  sv_validate : Blob → Bool
  sv_errors : Blob → List String
  /-- `CaptionsHelper.get_product_min_occurrences(captions_path)`
  (line 99): the read can raise, but its value is never used —
  the later check reads each product's own `min_occurrences` field. -/
  captionsRead : Except String Unit
  expected_content_types : List String
  expected_products : List (String × List String)

def addError (st : VState) (msg : String) : VState :=
  { st with errors := st.errors ++ [msg] }

/-- `MetadataValidator.add_warning`: record the warning only when its
key (the explicit key, or the message itself) has not been seen. -/
def addWarning (st : VState) (msg : String) (key : Option String) : VState :=
  let warning_key := key.getD msg
  if st.seen_warnings.contains warning_key then st
  else { st with
    warnings := st.warnings ++ [msg]
    seen_warnings := st.seen_warnings ++ [warning_key] }

def REQUIRED_KEYS_ORDER : List String :=
  ["content_types", "products", "structure", "images", "untagged", "settings"]

/-- `_validate_content_types` (the `isinstance` check is vacuous in the
typed embedding). -/
def validateContentTypes (cfg : VCtx) (data : MetadataData) (st : VState) :
    Bool × VState :=
  if !(setEqStr data.content_types cfg.expected_content_types) then
    (false, addError st "Content types mismatch")
  else (true, st)

/-- First invalid product name in a content type's list (field-presence
checks are vacuous in the typed embedding). -/
def oneListCheck (ct : String) (expected_names : List String) :
    List Product → Option String
  | [] => none
  | p :: rest =>
    if !(expected_names.contains p.name) then
      some ("Invalid product '" ++ p.name ++ "' in " ++ ct)
    else oneListCheck ct expected_names rest

/-- Per-content-type product list validation of `_validate_products`
(lines 115-162). -/
def prodListsCheck (expected : List (String × List String)) (st : VState) :
    List (String × List Product) → Except String (Bool × VState)
  | [] => pure (true, st)
  | (ct, prods) :: rest =>
    match expected.lookup ct with
    | none => Except.error ("KeyError: " ++ ct)
    | some expected_names =>
      match oneListCheck ct expected_names prods with
      | some msg => pure (false, addError st msg)
      | none =>
        let found := prods.map Product.name
        if expected_names.any (fun n => !(found.contains n)) then
          pure (false, addError st ("Missing products in " ++ ct))
        else if found.any (fun n => !(expected_names.contains n)) then
          pure (false, addError st ("Unexpected products in " ++ ct))
        else prodListsCheck expected st rest

/-- `{ct: {} for ct in products}` count table: outer dict keyed by the
declared content types, inner dict product name → count. -/
abbrev CountTbl := List (String × List (String × Nat))

def initCounts (products : List (String × List Product)) : CountTbl :=
  products.map fun e => (e.1, [])

/-- Dict assignment `inner[prod] = inner.get(prod, 0) + 1`: update the
entry in place when present, else append at the end. -/
def bumpInner (prod : String) : List (String × Nat) → List (String × Nat)
  | [] => [(prod, 1)]
  | q :: rest => if q.1 == prod then (q.1, q.2 + 1) :: rest else q :: bumpInner prod rest

def bumpOuter (ct prod : String) : CountTbl → CountTbl
  | [] => []
  | e :: rest => if e.1 == ct then (e.1, bumpInner prod e.2) :: rest else e :: bumpOuter ct prod rest

/-- `product_counts[ct][prod] = product_counts[ct].get(prod, 0) + 1`:
`KeyError` when the content type is not a key of the table. -/
def bumpTbl (tbl : CountTbl) (ct prod : String) : Except String CountTbl :=
  match tbl.lookup ct with
  | none => Except.error ("KeyError: " ++ ct)
  | some _ => Except.ok (bumpOuter ct prod tbl)

/-- `product_counts[ct].get(name, 0)`, `KeyError` on a missing content
type. -/
def tblGet (tbl : CountTbl) (ct name : String) : Except String Nat :=
  match tbl.lookup ct with
  | none => Except.error ("KeyError: " ++ ct)
  | some inner => Except.ok ((inner.lookup name).getD 0)

/-- The image pass of `_validate_products` (lines 167-196): count the
assigned (truthy) products and warn — or, in strict mode, record an
error without aborting — for every image with no product assigned. -/
def prodCountPass (cfg : VCtx) (data : MetadataData) (tbl : CountTbl)
    (st : VState) : List (String × ImageData) → Except String (CountTbl × VState)
  | [] => pure (tbl, st)
  | (img_name, d) :: rest =>
    if truthyStr d.product then do
      let tbl ← bumpTbl tbl d.content_type (d.product.getD "")
      prodCountPass cfg data tbl st rest
    else
      match data.products.lookup d.content_type with
      | none => Except.error ("KeyError: " ++ d.content_type)
      | some _ =>
        let key := "missing_product_" ++ img_name
        let msg := "Image " ++ img_name ++ " has no product assigned"
        if cfg.strict then prodCountPass cfg data tbl (addError st msg) rest
        else prodCountPass cfg data tbl (addWarning st msg (some key)) rest

/-- The `min_occurrences` check of `_validate_products` (lines 198-212)
for one content type. -/
def minOccOne (cfg : VCtx) (tbl : CountTbl) (ct : String) (st : VState) :
    List Product → Except String (Bool × VState)
  | [] => pure (true, st)
  | p :: rest =>
    if p.prevent_duplicates && decide (0 < p.min_occurrences) then do
      let count ← tblGet tbl ct p.name
      if count < p.min_occurrences then
        let msg := "Product '" ++ p.name ++ "' in " ++ ct ++
          " requires at least " ++ toString p.min_occurrences ++
          " images (has " ++ toString count ++ ")"
        if cfg.strict then pure (false, addError st msg)
        else minOccOne cfg tbl ct (addWarning st msg none) rest
      else minOccOne cfg tbl ct st rest
    else minOccOne cfg tbl ct st rest

def minOccPass (cfg : VCtx) (tbl : CountTbl) (st : VState) :
    List (String × List Product) → Except String (Bool × VState)
  | [] => pure (true, st)
  | (ct, prods) :: rest => do
    match ← minOccOne cfg tbl ct st prods with
    | (false, st) => pure (false, st)
    | (true, st) => minOccPass cfg tbl st rest

/-- `_validate_products`. -/
def validateProducts (cfg : VCtx) (data : MetadataData) (st : VState) :
    Except String (Bool × VState) := do
  let _ ← cfg.captionsRead
  let products := data.products
  if !(setEqStr (products.map Prod.fst) (cfg.expected_products.map Prod.fst)) then
    pure (false, addError st "Product content types mismatch")
  else do
    match ← prodListsCheck cfg.expected_products st products with
    | (false, st) => pure (false, st)
    | (true, st) => do
      let (tbl, st) ← prodCountPass cfg data (initCounts products) st data.images
      minOccPass cfg tbl st products

/-- `_validate_structure`: path existence and presence on disk of every
listed image, first failure wins. -/
def structCheck (cfg : VCtx) (st : VState) :
    List (String × StructureInfo) → Bool × VState
  | [] => (true, st)
  | (ct, info) :: rest =>
    if !(cfg.fs_exists info.path) then
      (false, addError st ("Path for " ++ ct ++ " does not exist"))
    else
      match info.images.find? (fun img => !(cfg.fs_exists (info.path ++ [img]))) with
      | some img => (false, addError st ("Image " ++ img ++ " not found in path of " ++ ct))
      | none => structCheck cfg st rest

/-- The dimension probe of `_validate_images` (lines 297-319): only
performed when the file exists; a PIL failure or a size mismatch is an
error. -/
def dimCheck (cfg : VCtx) (si : StructureInfo) (img_name : String)
    (d : ImageData) : Option String :=
  let img_path := si.path ++ [img_name]
  if cfg.fs_exists img_path then
    match cfg.fs_imageSize img_path with
    | none => some ("Failed to verify dimensions for " ++ img_name)
    | some actual =>
      if actual.width != d.dimensions.width || actual.height != d.dimensions.height then
        some ("Image " ++ img_name ++ " dimensions mismatch")
      else none
  else none

/-- `errors.extend(settings_validator.errors)` with a per-image
prefix. -/
def svFail (cfg : VCtx) (st : VState) (pre : String) (b : Blob) : VState :=
  { st with errors := st.errors ++ (cfg.sv_errors b).map (fun e => pre ++ e) }

/-- Outcome of the settings-source section of one `_validate_images`
iteration: abort the validator, skip to the next image (`continue`), or
proceed to the product-reference check. -/
inductive StepOut where
  | retFalse (st : VState)
  | skipRest (st : VState)
  | proceed (st : VState)

/-- The `settings_source` if/elif chain of `_validate_images`
(lines 335-412).  A `custom` image always skips the product check
(`continue`, line 345). -/
def settingsBranch (cfg : VCtx) (data : MetadataData) (st : VState)
    (img_name : String) (d : ImageData) : Except String StepOut :=
  let ss := d.settings_source
  if ss == "custom" then
    match d.settings with
    | none =>
      let msg := "Image " ++ img_name ++ " has custom settings_source but settings are null"
      if cfg.strict then pure (StepOut.retFalse (addError st msg))
      else pure (StepOut.skipRest (addWarning st msg none))
    | some _ => pure (StepOut.skipRest st)
  else if ss == "content" then
    match data.settings.lookup d.content_type with
    | none => pure (StepOut.retFalse
        (addError st ("No settings found for content type: " ++ d.content_type)))
    | some ct_settings =>
      match (ct_settings.lookup "content").getD none with
      | none =>
        if cfg.strict then pure (StepOut.retFalse (addError st
            ("Image " ++ img_name ++ " uses content-level settings but none defined for " ++ d.content_type)))
        else pure (StepOut.proceed (addWarning st
            ("Image " ++ img_name ++ " will use default settings as no content-level settings defined") none))
      | some b =>
        if cfg.sv_validate b then pure (StepOut.proceed st)
        else pure (StepOut.retFalse (svFail cfg st ("Image " ++ img_name ++ " content settings: ") b))
  else if ss == "product" then
    match data.settings.lookup d.content_type with
    | none => Except.error ("KeyError: " ++ d.content_type)
    | some ct_settings =>
      -- first group key (≠ "content") whose parsed members contain the
      -- image's own product; its value may still be null
      let found := ct_settings.find? (fun e =>
        e.1 != "content" &&
          (match d.product with
           | some p => (parseGroup e.1).contains p
           | none => false))
      match found with
      | some (_, some b) =>
        if cfg.sv_validate b then pure (StepOut.proceed st)
        else pure (StepOut.retFalse (svFail cfg st ("Image " ++ img_name ++ " product settings: ") b))
      | _ =>
        if cfg.strict then pure (StepOut.retFalse (addError st
            ("Image " ++ img_name ++ " uses product-level settings but none found for " ++ (d.product.getD "None"))))
        else pure (StepOut.proceed (addWarning st
            ("Image " ++ img_name ++ " will use default settings as no product settings found") none))
  else if ss == "default" then
    match d.settings with
    | some _ => pure (StepOut.retFalse (addError st
        ("Image " ++ img_name ++ " has default settings_source but has non-null settings")))
    | none => pure (StepOut.proceed st)
  else
    -- invalid settings_source: already warned (non-strict), no branch taken
    pure (StepOut.proceed st)

/-- The product-reference check of `_validate_images` (lines 414-436). -/
def productStep (cfg : VCtx) (data : MetadataData) (st : VState)
    (img_name : String) (d : ImageData) : Except String (Bool × VState) :=
  match d.product with
  | none =>
    match data.products.lookup d.content_type with
    | none => Except.error ("KeyError: " ++ d.content_type)
    | some _ =>
      let key := "missing_product_" ++ img_name
      let msg := "Image " ++ img_name ++ " has no product assigned"
      if cfg.strict then pure (false, addError st msg)
      else pure (true, addWarning st msg (some key))
  | some p =>
    match data.products.lookup d.content_type with
    | none => pure (true, st)
    | some prods =>
      if p == "all" then pure (true, st)
      else if (prods.map Product.name).contains p then pure (true, st)
      else pure (false, addError st ("Image " ++ img_name ++ " has invalid product: " ++ p))

/-- One iteration of the `_validate_images` loop (field-presence and
`isinstance` checks are vacuous in the typed embedding). -/
def imageCheck (cfg : VCtx) (data : MetadataData) (st : VState)
    (img_name : String) (d : ImageData) : Except String (Bool × VState) :=
  match data.structure_.lookup d.content_type with
  | none => pure (false, addError st
      ("Image " ++ img_name ++ " has invalid content_type: " ++ d.content_type))
  | some si =>
    if !(si.images.contains img_name) then
      pure (false, addError st ("Image " ++ img_name ++ " claims to be in " ++
        d.content_type ++ " folder but isn't found there"))
    else
      match dimCheck cfg si img_name d with
      | some msg => pure (false, addError st msg)
      | none => do
        match ← settingsBranch cfg data st img_name d with
        | StepOut.retFalse st => pure (false, st)
        | StepOut.skipRest st => pure (true, st)
        | StepOut.proceed st => productStep cfg data st img_name d

def imagesLoop (cfg : VCtx) (data : MetadataData) (st : VState) :
    List (String × ImageData) → Except String (Bool × VState)
  | [] => pure (true, st)
  | (img_name, d) :: rest => do
    match ← imageCheck cfg data st img_name d with
    | (false, st) => pure (false, st)
    | (true, st) => imagesLoop cfg data st rest

/-- `_validate_images`: sortedness of the keys, then the per-image
checks over `sorted(images.items())`. -/
def validateImages (cfg : VCtx) (data : MetadataData) (st : VState) :
    Except String (Bool × VState) :=
  if !(isSortedLe (data.images.map Prod.fst)) then
    pure (false, addError st "Images must be sorted alphabetically")
  else
    imagesLoop cfg data st (sortByKey data.images)

/-- `_validate_untagged`. -/
def validateUntagged (cfg : VCtx) (data : MetadataData) (st : VState) :
    Except String (Bool × VState) :=
  let untagged := data.untagged
  if !(decide untagged.Nodup) then
    pure (false, addError st "Duplicate entries found in untagged list")
  else
    match data.content_types.head? with
    | none => Except.error "IndexError: content_types is empty"
    | some ct0 =>
      match data.structure_.lookup ct0 with
      | none => Except.error ("KeyError: " ++ ct0)
      | some si =>
        let base_path := si.path.dropLast
        match untagged.find? (fun img => !(cfg.fs_exists (base_path ++ [img]))) with
        | some img => pure (false, addError st
            ("Untagged image " ++ img ++ " not found in base folder"))
        | none =>
          if cfg.strict && !untagged.isEmpty then
            pure (false, addError st "Strict mode: Untagged images not allowed")
          else if !untagged.isEmpty then
            pure (true, addWarning st
              ("Found " ++ toString untagged.length ++ " untagged images") none)
          else pure (true, st)

/-- The product-group loop of `_validate_settings` (lines 524-566);
`seen` accumulates the products already claimed by an earlier group of
the same content type. -/
def groupLoop (cfg : VCtx) (validNames : Option (List String))
    (content_type : String) (seen : List String) (st : VState) :
    List (String × Option Blob) → Bool × VState
  | [] => (true, st)
  | (key, value) :: rest =>
    if key == "content" then groupLoop cfg validNames content_type seen st rest
    else if !(key.toList.head? == some '[' && key.toList.getLast? == some ']') then
      (false, addError st ("Invalid product group format in " ++ content_type ++ ": " ++ key))
    else
      let products := parseGroup key
      if products.any (seen.contains ·) then
        (false, addError st ("Duplicate products in " ++ content_type ++ " settings"))
      else
        let seen := seen ++ products
        let invalid : List String :=
          match validNames with
          | none => []
          | some ns => products.filter (fun p => !(ns.contains p) && p != "all")
        if !invalid.isEmpty then
          (false, addError st ("Invalid products in " ++ content_type ++ " settings"))
        else
          match value with
          | some b =>
            if cfg.sv_validate b then groupLoop cfg validNames content_type seen st rest
            else (false, svFail cfg st (content_type ++ " " ++ key ++ " settings: ") b)
          | none => groupLoop cfg validNames content_type seen st rest

/-- The per-content-type loop of `_validate_settings`. -/
def settingsLoop (cfg : VCtx) (data : MetadataData) (st : VState) :
    List (String × List (String × Option Blob)) → Bool × VState
  | [] => (true, st)
  | (content_type, ct_settings) :: rest =>
    if !(data.content_types.contains content_type) then
      (false, addError st ("Settings defined for invalid content type: " ++ content_type))
    else if !((ct_settings.lookup "content").isSome) then
      (false, addError st ("Settings for " ++ content_type ++ " missing 'content' field"))
    else
      let afterGroups := fun (st : VState) =>
        let validNames := (data.products.lookup content_type).map (·.map Product.name)
        match groupLoop cfg validNames content_type [] st ct_settings with
        | (false, st) => (false, st)
        | (true, st) => settingsLoop cfg data st rest
      match (ct_settings.lookup "content").getD none with
      | some b =>
        if cfg.sv_validate b then afterGroups st
        else (false, svFail cfg st (content_type ++ " content settings: ") b)
      | none => afterGroups st

/-- The first pass of `_validate_product_counts` (lines 580-586):
count non-null, non-"all" products per content type. -/
def firstPass (tbl : CountTbl) : List (String × ImageData) → Except String CountTbl
  | [] => pure tbl
  | (_, d) :: rest =>
    if truthyStr d.product && !(d.product == some "all") then do
      let tbl ← bumpTbl tbl d.content_type (d.product.getD "")
      firstPass tbl rest
    else firstPass tbl rest

/-- The per-content-type total of wildcard-"all" images
(lines 589-592). -/
def allCount (images : List (String × ImageData)) (ct : String) : Nat :=
  images.countP (fun e => e.2.content_type == ct && e.2.product == some "all")

/-- The reconciliation loop of `_validate_product_counts`
(lines 594-612) over one content type's products: every stored count is
overwritten with product-specific count + "all" count (added once), a
mismatch being only a warning. -/
def applyCountsInner (tbl : CountTbl) (allc : Nat) (ct : String) (st : VState) :
    List Product → Except String (List Product × VState)
  | [] => pure ([], st)
  | p :: rest => do
    let cnt ← tblGet tbl ct p.name
    let actual : Int := (cnt : Int) + (allc : Int)
    let st := if p.current_count != actual then
        addWarning st ("Incorrect count for " ++ ct ++ "/" ++ p.name) none
      else st
    let (tail, st) ← applyCountsInner tbl allc ct st rest
    pure ({ p with current_count := actual } :: tail, st)

def applyCounts (tbl : CountTbl) (images : List (String × ImageData))
    (st : VState) : List (String × List Product) →
    Except String (List (String × List Product) × VState)
  | [] => pure ([], st)
  | (ct, prods) :: rest => do
    let (prods', st) ← applyCountsInner tbl (allCount images ct) ct st prods
    let (tail, st) ← applyCounts tbl images st rest
    pure ((ct, prods') :: tail, st)

/-- `_validate_product_counts`: recompute and overwrite every
`current_count`; always returns `True`. -/
def validateProductCounts (data : MetadataData) (st : VState) :
    Except String (Bool × MetadataData × VState) := do
  let tbl ← firstPass (initCounts data.products) data.images
  let (newProds, st) ← applyCounts tbl data.images st data.products
  pure (true, { data with products := newProds }, st)

/-- `MetadataValidator.validate`: reset the instance state, check the
top-level key order (hard requirement, short-circuits), then run the
seven validators in order — exiting early in strict mode on a failing
validator — and finally promote warnings to errors in strict mode. -/
def validate (cfg : VCtx) (data : MetadataData) (_incoming : VState) :
    Except String (Bool × MetadataData × VState) :=
  if data.keys != REQUIRED_KEYS_ORDER then
    Except.ok (false, data,
      addError ⟨[], [], []⟩ "Metadata keys are not in correct order")
  else do
    let (b1, st) := validateContentTypes cfg data ⟨[], [], []⟩
    if cfg.strict && !b1 then pure (false, data, st) else do
    let (b2, st) ← validateProducts cfg data st
    if cfg.strict && !b2 then pure (false, data, st) else do
    let (b3, st) := structCheck cfg st data.structure_
    if cfg.strict && !b3 then pure (false, data, st) else do
    let (b4, st) ← validateImages cfg data st
    if cfg.strict && !b4 then pure (false, data, st) else do
    let (b5, st) ← validateUntagged cfg data st
    if cfg.strict && !b5 then pure (false, data, st) else do
    let (b6, st) := settingsLoop cfg data st data.settings
    if cfg.strict && !b6 then pure (false, data, st) else do
    let (b7, data', st) ← validateProductCounts data st
    if cfg.strict && !b7 then pure (false, data', st) else do
    let valid := b1 && b2 && b3 && b4 && b5 && b6 && b7
    if cfg.strict && !st.warnings.isEmpty then
      pure (false, data', { st with errors := st.errors ++ st.warnings })
    else if !valid then pure (false, data', st)
    else pure (true, data', st)

/-- The load-and-validate branch of `Metadata.load` (metadata.py
62-95): a parsed payload is validated; a `False` verdict — or any
exception, caught by the bare `except` — makes `load` return `False`. -/
def loadChecks (cfg : VCtx) (data : MetadataData) (st : VState) : Bool :=
  match validate cfg data st with
  | Except.ok (true, _, _) => true
  | Except.ok (false, _, _) => false
  | Except.error _ => false

end Validator

section CountLemmas

/-!
### Lemmas about the count-reconciliation pass (claim C1)
-/

/-- Spec-side count: images of content type `ct` assigned exactly
product `name`. -/
def countExact (images : List (String × ImageData)) (ct name : String) : Nat :=
  images.countP (fun e => e.2.content_type == ct && e.2.product == some name)

/-- Total getter on a count table (0 when absent). -/
def cnt (tbl : CountTbl) (ct name : String) : Nat :=
  (((tbl.lookup ct).getD []).lookup name).getD 0

theorem lookup_bumpInner (inner : List (String × Nat)) (prod name : String) :
    ((bumpInner prod inner).lookup name).getD 0 =
      ((inner.lookup name).getD 0) + (if name = prod then 1 else 0) := by
  induction inner with
  | nil =>
    cases hbe : name == prod with
    | true =>
      rw [if_pos (eq_of_beq hbe)]
      simp [bumpInner, List.lookup, hbe]
    | false =>
      rw [if_neg (ne_of_beq_false hbe)]
      simp [bumpInner, List.lookup, hbe]
  | cons q rest ih =>
    unfold bumpInner
    cases hq : q.1 == prod with
    | true =>
      have hqe : q.1 = prod := eq_of_beq hq
      cases hbn : name == q.1 with
      | true =>
        rw [if_pos (show name = prod from (eq_of_beq hbn).trans hqe)]
        simp [List.lookup, hbn]
      | false =>
        rw [if_neg (fun (hc : name = prod) => (ne_of_beq_false hbn) (hc.trans hqe.symm))]
        simp [List.lookup, hbn]
    | false =>
      cases hbn : name == q.1 with
      | true =>
        rw [if_neg (fun (hc : name = prod) => (ne_of_beq_false hq) ((eq_of_beq hbn).symm.trans hc))]
        simp [List.lookup, hbn]
      | false =>
        simp [List.lookup, hbn, ih]

theorem lookup_bumpOuter (tbl : CountTbl) (ct prod k : String) :
    (bumpOuter ct prod tbl).lookup k =
      if k = ct then (tbl.lookup k).map (bumpInner prod) else tbl.lookup k := by
  induction tbl with
  | nil =>
    by_cases hk : k = ct <;> simp [bumpOuter, List.lookup, hk]
  | cons e rest ih =>
    unfold bumpOuter
    cases he : e.1 == ct with
    | true =>
      have hee : e.1 = ct := eq_of_beq he
      cases hbk : k == e.1 with
      | true =>
        rw [if_pos (show k = ct from (eq_of_beq hbk).trans hee)]
        simp [List.lookup, hbk]
      | false =>
        rw [if_neg (fun (hc : k = ct) => (ne_of_beq_false hbk) (hc.trans hee.symm))]
        simp [List.lookup, hbk]
    | false =>
      cases hbk : k == e.1 with
      | true =>
        rw [if_neg (fun (hc : k = ct) => (ne_of_beq_false he) ((eq_of_beq hbk).symm.trans hc))]
        simp [List.lookup, hbk]
      | false =>
        simp [List.lookup, hbk, ih]

theorem cnt_bumpOuter (tbl : CountTbl) (ct prod k name : String)
    (hsome : (tbl.lookup ct).isSome) :
    cnt (bumpOuter ct prod tbl) k name =
      cnt tbl k name + (if k = ct ∧ name = prod then 1 else 0) := by
  unfold cnt
  rw [lookup_bumpOuter]
  by_cases hk : k = ct
  · rw [if_pos hk]
    subst hk
    cases h : tbl.lookup k with
    | none => rw [h] at hsome; simp at hsome
    | some inner =>
      simp only [Option.map_some', Option.getD_some]
      rw [lookup_bumpInner]
      by_cases hn : name = prod <;> simp [hn]
  · rw [if_neg hk]
    simp [hk]

theorem bumpTbl_ok {tbl tbl' : CountTbl} {ct prod : String}
    (h : bumpTbl tbl ct prod = Except.ok tbl') :
    (tbl.lookup ct).isSome ∧ tbl' = bumpOuter ct prod tbl := by
  unfold bumpTbl at h
  cases hl : tbl.lookup ct with
  | none => rw [hl] at h; simp at h
  | some inner =>
    rw [hl] at h
    simp only [Except.ok.injEq] at h
    exact ⟨by simp [hl], h.symm⟩

theorem firstPass_cnt {imgs : List (String × ImageData)} {tbl tbl' : CountTbl}
    (h : firstPass tbl imgs = Except.ok tbl') (ct name : String)
    (hne : name ≠ "") (hna : name ≠ "all") :
    cnt tbl' ct name = cnt tbl ct name + countExact imgs ct name := by
  induction imgs generalizing tbl with
  | nil =>
    unfold firstPass at h
    simp only [pure, Except.pure, Except.ok.injEq] at h
    subst h
    simp [countExact]
  | cons e rest ih =>
    unfold firstPass at h
    by_cases hc : (truthyStr e.2.product && !(e.2.product == some "all")) = true
    · rw [if_pos hc] at h
      cases hb : bumpTbl tbl e.2.content_type (e.2.product.getD "") with
      | error msg =>
        rw [hb] at h
        simp [Bind.bind, Except.bind] at h
      | ok tbl1 =>
        rw [hb] at h
        simp only [Bind.bind, Except.bind] at h
        obtain ⟨hsome, htb⟩ := bumpTbl_ok hb
        rw [ih h, htb, cnt_bumpOuter _ _ _ _ _ hsome]
        have hc2 := hc
        simp only [Bool.and_eq_true] at hc2
        obtain ⟨htr, hnall⟩ := hc2
        cases hp : e.2.product with
        | none => rw [hp] at htr; simp [truthyStr] at htr
        | some s =>
          simp only [Option.getD_some]
          have hrhs : countExact (e :: rest) ct name =
              countExact rest ct name +
                (if ct = e.2.content_type ∧ name = s then 1 else 0) := by
            unfold countExact
            rw [List.countP_cons]
            by_cases h1 : e.2.content_type = ct
            · by_cases h2 : name = s
              · rw [if_pos (show ct = e.2.content_type ∧ name = s from ⟨h1.symm, h2⟩)]
                have hcond : (e.2.content_type == ct && e.2.product == some name) = true := by
                  rw [hp, h1, h2]; simp
                simp [hcond]
              · rw [if_neg (show ¬(ct = e.2.content_type ∧ name = s) from fun hx => h2 hx.2)]
                have hcond : (e.2.content_type == ct && e.2.product == some name) = false := by
                  rw [hp]
                  simp only [Bool.and_eq_false_iff, beq_eq_false_iff_ne, ne_eq,
                    Option.some.injEq]
                  right
                  exact fun hcontra => h2 hcontra.symm
                simp [hcond]
            · rw [if_neg (show ¬(ct = e.2.content_type ∧ name = s) from fun hx => h1 hx.1.symm)]
              have hcond : (e.2.content_type == ct && e.2.product == some name) = false := by
                simp [h1]
              simp [hcond]
          rw [hrhs]
          omega
    · rw [if_neg hc] at h
      rw [ih h]
      rw [Bool.not_eq_true] at hc
      have hcond : (e.2.content_type == ct && e.2.product == some name) = false := by
        cases hp : e.2.product with
        | none => simp
        | some s =>
          rw [hp] at hc
          by_cases hs : s = name
          · exfalso
            subst hs
            have h1 : truthyStr (some s) = true := by
              simp only [truthyStr, Bool.not_eq_true']
              simp [hne]
            have h2 : (!(some s == some "all")) = true := by
              simp [hna]
            rw [h1, h2] at hc
            simp at hc
          · simp [hs]
      unfold countExact
      rw [List.countP_cons, hcond, if_neg (by simp)]
      omega

theorem tblGet_ok {tbl : CountTbl} {ct name : String} {c : Nat}
    (h : tblGet tbl ct name = Except.ok c) : c = cnt tbl ct name := by
  unfold tblGet at h
  cases hl : tbl.lookup ct with
  | none => rw [hl] at h; simp at h
  | some inner =>
    rw [hl] at h
    simp only [Except.ok.injEq] at h
    unfold cnt
    rw [hl]
    simp [h]

theorem applyCountsInner_ok {tbl : CountTbl} {allc : Nat} {ct : String}
    {st st' : VState} {prods prods' : List Product}
    (h : applyCountsInner tbl allc ct st prods = Except.ok (prods', st')) :
    prods' = prods.map (fun p =>
      { p with current_count := (cnt tbl ct p.name : Int) + (allc : Int) }) := by
  induction prods generalizing st st' prods' with
  | nil =>
    unfold applyCountsInner at h
    simp only [pure, Except.pure, Except.ok.injEq, Prod.mk.injEq] at h
    simp [← h.1]
  | cons p rest ih =>
    unfold applyCountsInner at h
    cases hg : tblGet tbl ct p.name with
    | error msg => rw [hg] at h; simp [Bind.bind, Except.bind] at h
    | ok c =>
      rw [hg] at h
      simp only [Bind.bind, Except.bind] at h
      cases hrec : applyCountsInner tbl allc ct
          (if p.current_count != (c : Int) + (allc : Int) then
            addWarning st ("Incorrect count for " ++ ct ++ "/" ++ p.name) none
          else st) rest with
      | error msg => rw [hrec] at h; simp at h
      | ok pr =>
        rw [hrec] at h
        obtain ⟨tail, st2⟩ := pr
        simp only [pure, Except.pure, Except.ok.injEq, Prod.mk.injEq] at h
        rw [← h.1, ih hrec, tblGet_ok hg]
        simp

theorem applyCounts_ok {tbl : CountTbl} {images : List (String × ImageData)}
    {st st' : VState} {ps ps' : List (String × List Product)}
    (h : applyCounts tbl images st ps = Except.ok (ps', st')) :
    ps' = ps.map (fun e => (e.1, e.2.map (fun p =>
      { p with current_count :=
          (cnt tbl e.1 p.name : Int) + (allCount images e.1 : Int) }))) := by
  induction ps generalizing st st' ps' with
  | nil =>
    unfold applyCounts at h
    simp only [pure, Except.pure, Except.ok.injEq, Prod.mk.injEq] at h
    simp [← h.1]
  | cons e rest ih =>
    unfold applyCounts at h
    cases hinner : applyCountsInner tbl (allCount images e.1) e.1 st e.2 with
    | error msg => rw [hinner] at h; simp [Bind.bind, Except.bind] at h
    | ok pr =>
      rw [hinner] at h
      obtain ⟨prods', st1⟩ := pr
      simp only [Bind.bind, Except.bind] at h
      cases hrec : applyCounts tbl images st1 rest with
      | error msg => rw [hrec] at h; simp at h
      | ok pr2 =>
        rw [hrec] at h
        obtain ⟨tail, st2⟩ := pr2
        simp only [pure, Except.pure, Except.ok.injEq, Prod.mk.injEq] at h
        rw [← h.1, ih hrec, applyCountsInner_ok hinner]
        simp

/-- `_validate_product_counts` succeeds only with verdict `True`, the
non-`products` sections untouched, and every resulting `current_count`
equal to table count + "all" count. -/
theorem validateProductCounts_ok {data d' : MetadataData} {st st' : VState}
    {b : Bool} (h : validateProductCounts data st = Except.ok (b, d', st')) :
    b = true ∧ d'.images = data.images ∧ d'.keys = data.keys ∧
      ∃ tbl, firstPass (initCounts data.products) data.images = Except.ok tbl ∧
        d'.products = data.products.map (fun e => (e.1, e.2.map (fun p =>
          { p with current_count :=
              (cnt tbl e.1 p.name : Int) + (allCount data.images e.1 : Int) }))) := by
  unfold validateProductCounts at h
  cases hfp : firstPass (initCounts data.products) data.images with
  | error msg => rw [hfp] at h; simp [Bind.bind, Except.bind] at h
  | ok tbl =>
    rw [hfp] at h
    simp only [Bind.bind, Except.bind] at h
    cases hac : applyCounts tbl data.images st data.products with
    | error msg => rw [hac] at h; simp at h
    | ok pr =>
      rw [hac] at h
      obtain ⟨newProds, st1⟩ := pr
      simp only [pure, Except.pure, Except.ok.injEq, Prod.mk.injEq] at h
      obtain ⟨hb, hd, _⟩ := h
      refine ⟨hb.symm, ?_, ?_, tbl, rfl, ?_⟩
      · rw [← hd]
      · rw [← hd]
      · rw [← hd]
        exact applyCounts_ok hac

/-- The `cnt` of the empty initial table is zero everywhere. -/
theorem cnt_initCounts (ps : List (String × List Product)) (ct name : String) :
    cnt (initCounts ps) ct name = 0 := by
  unfold cnt initCounts
  induction ps with
  | nil => simp [List.lookup]
  | cons e rest ih =>
    cases hbe : ct == e.1 with
    | true => simp [List.lookup, hbe]
    | false => simpa [List.lookup, hbe] using ih

/-- A successful `validate` went through the final
count-reconciliation pass: the returned data is its output. -/
theorem validate_true_counts {cfg : VCtx} {data d' : MetadataData}
    {st0 st' : VState} (h : validate cfg data st0 = Except.ok (true, d', st')) :
    ∃ stA b stB, validateProductCounts data stA = Except.ok (b, d', stB) := by
  unfold validate at h
  by_cases hk : (data.keys != REQUIRED_KEYS_ORDER) = true
  · rw [if_pos hk] at h
    simp at h
  · rw [if_neg hk] at h
    rcases hv1 : validateContentTypes cfg data ⟨[], [], []⟩ with ⟨b1, st1⟩
    rw [hv1] at h
    dsimp only at h
    by_cases hc1 : (cfg.strict && !b1) = true
    · rw [if_pos hc1] at h; simp [pure, Except.pure] at h
    · rw [if_neg hc1] at h
      cases hv2 : validateProducts cfg data st1 with
      | error e => rw [hv2] at h; simp [Bind.bind, Except.bind] at h
      | ok pr2 =>
        obtain ⟨b2, st2⟩ := pr2
        rw [hv2] at h
        simp only [Bind.bind, Except.bind] at h
        by_cases hc2 : (cfg.strict && !b2) = true
        · rw [if_pos hc2] at h; simp [pure, Except.pure] at h
        · rw [if_neg hc2] at h
          rcases hv3 : structCheck cfg st2 data.structure_ with ⟨b3, st3⟩
          rw [hv3] at h
          dsimp only at h
          by_cases hc3 : (cfg.strict && !b3) = true
          · rw [if_pos hc3] at h; simp [pure, Except.pure] at h
          · rw [if_neg hc3] at h
            cases hv4 : validateImages cfg data st3 with
            | error e => rw [hv4] at h; simp [Bind.bind, Except.bind] at h
            | ok pr4 =>
              obtain ⟨b4, st4⟩ := pr4
              rw [hv4] at h
              simp only [Bind.bind, Except.bind] at h
              by_cases hc4 : (cfg.strict && !b4) = true
              · rw [if_pos hc4] at h; simp [pure, Except.pure] at h
              · rw [if_neg hc4] at h
                cases hv5 : validateUntagged cfg data st4 with
                | error e => rw [hv5] at h; simp [Bind.bind, Except.bind] at h
                | ok pr5 =>
                  obtain ⟨b5, st5⟩ := pr5
                  rw [hv5] at h
                  simp only [Bind.bind, Except.bind] at h
                  by_cases hc5 : (cfg.strict && !b5) = true
                  · rw [if_pos hc5] at h; simp [pure, Except.pure] at h
                  · rw [if_neg hc5] at h
                    rcases hv6 : settingsLoop cfg data st5 data.settings with ⟨b6, st6⟩
                    rw [hv6] at h
                    dsimp only at h
                    by_cases hc6 : (cfg.strict && !b6) = true
                    · rw [if_pos hc6] at h; simp [pure, Except.pure] at h
                    · rw [if_neg hc6] at h
                      cases hv7 : validateProductCounts data st6 with
                      | error e => rw [hv7] at h; simp [Bind.bind, Except.bind] at h
                      | ok pr7 =>
                        obtain ⟨b7, d7, st7⟩ := pr7
                        rw [hv7] at h
                        simp only [Bind.bind, Except.bind] at h
                        by_cases hc7 : (cfg.strict && !b7) = true
                        · rw [if_pos hc7] at h; simp [pure, Except.pure] at h
                        · rw [if_neg hc7] at h
                          by_cases hc8 : (cfg.strict && !st7.warnings.isEmpty) = true
                          · rw [if_pos hc8] at h; simp [pure, Except.pure] at h
                          · rw [if_neg hc8] at h
                            by_cases hc9 : (!(b1 && b2 && b3 && b4 && b5 && b6 && b7)) = true
                            · rw [if_pos hc9] at h; simp [pure, Except.pure] at h
                            · rw [if_neg hc9] at h
                              simp only [pure, Except.pure, Except.ok.injEq,
                                Prod.mk.injEq] at h
                              obtain ⟨-, hd, -⟩ := h
                              rw [hd] at hv7
                              exact ⟨st6, b7, st7, hv7⟩

end CountLemmas

section SelectionLemmas

/-- The pure predicate computed by `filterByProduct` when every lookup
succeeds. -/
def imgHasProduct (images : List (String × ImageData)) (pname img : String) : Bool :=
  match images.lookup img with
  | some d => d.product == some pname
  | none => false

theorem filterByProduct_ok {images : List (String × ImageData)} {pname : String}
    {l : List String} (h : ∀ img ∈ l, (images.lookup img).isSome) :
    filterByProduct images pname l =
      Except.ok (l.filter (imgHasProduct images pname)) := by
  induction l with
  | nil => rfl
  | cons x rest ih =>
    have hx : (images.lookup x).isSome := h x (List.mem_cons_self _ _)
    cases hl : images.lookup x with
    | none => rw [hl] at hx; simp at hx
    | some d =>
      unfold filterByProduct
      rw [hl, ih (fun img hm => h img (List.mem_cons_of_mem _ hm))]
      simp [Bind.bind, Except.bind, pure, Except.pure, List.filter_cons,
        imgHasProduct, hl]

theorem filterByProduct_mem {images : List (String × ImageData)} {pname : String}
    {l r : List String} (h : filterByProduct images pname l = Except.ok r)
    {img : String} (hm : img ∈ r) :
    img ∈ l ∧ ∃ d, images.lookup img = some d ∧ d.product = some pname := by
  induction l generalizing r with
  | nil =>
    unfold filterByProduct at h
    simp only [Except.ok.injEq] at h
    rw [← h] at hm
    simp at hm
  | cons x rest ih =>
    unfold filterByProduct at h
    cases hl : images.lookup x with
    | none => rw [hl] at h; simp at h
    | some d =>
      rw [hl] at h
      cases hrec : filterByProduct images pname rest with
      | error e => rw [hrec] at h; simp [Bind.bind, Except.bind] at h
      | ok tail =>
        rw [hrec] at h
        simp only [Bind.bind, Except.bind, pure, Except.pure, Except.ok.injEq] at h
        by_cases hp : (d.product == some pname) = true
        · rw [if_pos hp] at h
          rw [← h] at hm
          rcases List.mem_cons.mp hm with heq | hmem
          · subst heq
            exact ⟨List.mem_cons_self _ _, d, hl, eq_of_beq hp⟩
          · obtain ⟨h1, h2⟩ := ih hrec hmem
            exact ⟨List.mem_cons_of_mem _ h1, h2⟩
        · rw [if_neg hp] at h
          rw [← h] at hm
          obtain ⟨h1, h2⟩ := ih hrec hm
          exact ⟨List.mem_cons_of_mem _ h1, h2⟩

theorem excludeUsed_ok {used : Used} {ct pname : String} {ul : List String}
    (h : usedLookup used ct pname = Except.ok ul) (l : List String) :
    excludeUsed used ct pname l =
      Except.ok (l.filter (fun img => !(ul.contains img))) := by
  induction l with
  | nil => rfl
  | cons x rest ih =>
    unfold excludeUsed
    rw [h, ih]
    simp [Bind.bind, Except.bind, pure, Except.pure, List.filter_cons]

theorem excludeUsed_mem {used : Used} {ct pname : String} {l r : List String}
    (h : excludeUsed used ct pname l = Except.ok r) {img : String}
    (hm : img ∈ r) : img ∈ l := by
  induction l generalizing r with
  | nil =>
    unfold excludeUsed at h
    simp only [Except.ok.injEq] at h
    rw [← h] at hm
    simp at hm
  | cons x rest ih =>
    unfold excludeUsed at h
    cases hu : usedLookup used ct pname with
    | error e => rw [hu] at h; simp [Bind.bind, Except.bind] at h
    | ok ul =>
      rw [hu] at h
      cases hrec : excludeUsed used ct pname rest with
      | error e => rw [hrec] at h; simp [Bind.bind, Except.bind] at h
      | ok tail =>
        rw [hrec] at h
        simp only [Bind.bind, Except.bind, pure, Except.pure, Except.ok.injEq] at h
        by_cases hc : (ul.contains x) = true
        · rw [if_pos hc] at h
          rw [← h] at hm
          exact List.mem_cons_of_mem _ (ih hrec hm)
        · rw [if_neg hc] at h
          rw [← h] at hm
          rcases List.mem_cons.mp hm with heq | hmem
          · subst heq; exact List.mem_cons_self _ _
          · exact List.mem_cons_of_mem _ (ih hrec hmem)

theorem allPool_mem {md : MetadataData} {ct : String} {used : Used}
    {allowAll : Bool} {allImages : List String} {prods : List Product}
    {r : List String} (h : allPool md ct used allowAll allImages prods = Except.ok r)
    {img : String} (hm : img ∈ r) :
    ∃ pi ∈ prods, ∃ d, md.images.lookup img = some d ∧ d.product = some pi.name := by
  induction prods generalizing r with
  | nil =>
    unfold allPool at h
    simp only [Except.ok.injEq] at h
    rw [← h] at hm
    simp at hm
  | cons pi rest ih =>
    unfold allPool at h
    by_cases hc : (pi.prevent_duplicates && !allowAll) = true
    · rw [if_pos hc] at h
      obtain ⟨q, hq, hd⟩ := ih h hm
      exact ⟨q, List.mem_cons_of_mem _ hq, hd⟩
    · rw [if_neg hc] at h
      cases hf : filterByProduct md.images pi.name allImages with
      | error e => rw [hf] at h; simp [Bind.bind, Except.bind] at h
      | ok matching =>
        rw [hf] at h
        simp only [Bind.bind, Except.bind] at h
        by_cases hpd : pi.prevent_duplicates = true
        · rw [if_pos hpd] at h
          cases hex : excludeUsed used ct pi.name matching with
          | error e => rw [hex] at h; simp at h
          | ok matching2 =>
            rw [hex] at h
            cases hrec : allPool md ct used allowAll allImages rest with
            | error e => rw [hrec] at h; simp at h
            | ok tail =>
              rw [hrec] at h
              simp only [pure, Except.pure, Except.ok.injEq] at h
              rw [← h] at hm
              rcases List.mem_append.mp hm with h1 | h2
              · obtain ⟨-, d, hd, hp⟩ :=
                  filterByProduct_mem hf (excludeUsed_mem hex h1)
                exact ⟨pi, List.mem_cons_self _ _, d, hd, hp⟩
              · obtain ⟨q, hq, hd⟩ := ih hrec h2
                exact ⟨q, List.mem_cons_of_mem _ hq, hd⟩
        · rw [if_neg hpd] at h
          simp only [pure, Except.pure] at h
          cases hrec : allPool md ct used allowAll allImages rest with
          | error e => rw [hrec] at h; simp [Bind.bind, Except.bind] at h
          | ok tail =>
            rw [hrec] at h
            simp only [Bind.bind, Except.bind, pure, Except.pure,
              Except.ok.injEq] at h
            rw [← h] at hm
            rcases List.mem_append.mp hm with h1 | h2
            · obtain ⟨-, d, hd, hp⟩ := filterByProduct_mem hf h1
              exact ⟨pi, List.mem_cons_self _ _, d, hd, hp⟩
            · obtain ⟨q, hq, hd⟩ := ih hrec h2
              exact ⟨q, List.mem_cons_of_mem _ hq, hd⟩

theorem allPool_nil {md : MetadataData} {ct : String} {used : Used}
    {allowAll : Bool} {allImages : List String} {prods : List Product}
    (hlk : ∀ img ∈ allImages,
      ∃ d, md.images.lookup img = some d ∧ d.product = some "all")
    (hna : ∀ pi ∈ prods, pi.name ≠ "all") :
    allPool md ct used allowAll allImages prods = Except.ok [] := by
  induction prods with
  | nil => rfl
  | cons pi rest ih =>
    have hrest := ih (fun q hq => hna q (List.mem_cons_of_mem _ hq))
    have hpina : pi.name ≠ "all" := hna pi (List.mem_cons_self _ _)
    have hfilter : filterByProduct md.images pi.name allImages = Except.ok [] := by
      have hsome : ∀ img ∈ allImages, (md.images.lookup img).isSome := by
        intro img hm
        obtain ⟨d, hd, -⟩ := hlk img hm
        simp [hd]
      rw [filterByProduct_ok hsome]
      congr 1
      apply List.filter_eq_nil_iff.mpr
      intro img hm
      obtain ⟨d, hd, hp⟩ := hlk img hm
      simp [imgHasProduct, hd, hp]
      exact fun hcontra => hpina hcontra.symm
    unfold allPool
    by_cases hc : (pi.prevent_duplicates && !allowAll) = true
    · rw [if_pos hc]; exact hrest
    · rw [if_neg hc]
      rw [hfilter]
      by_cases hpd : pi.prevent_duplicates = true <;>
        simp [hpd, excludeUsed, hrest, Bind.bind, Except.bind, pure, Except.pure]

theorem initUsedGo_lookup {md : MetadataData} {cts : List String} {u : Used}
    (h : initUsedGo md cts = Except.ok u) {ct : String} (hct : ct ∈ cts)
    {prods : List Product} (hprods : md.products.lookup ct = some prods) :
    u.lookup ct = some (prods.map fun q => (q.name, ([] : List String))) := by
  induction cts generalizing u with
  | nil => simp at hct
  | cons c rest ih =>
    unfold initUsedGo at h
    cases hl : md.products.lookup c with
    | none => rw [hl] at h; simp at h
    | some ps =>
      rw [hl] at h
      cases hrec : initUsedGo md rest with
      | error e => rw [hrec] at h; simp [Bind.bind, Except.bind] at h
      | ok tail =>
        rw [hrec] at h
        simp only [Bind.bind, Except.bind, Except.ok.injEq] at h
        rw [← h]
        by_cases hceq : ct = c
        · subst hceq
          have hps : prods = ps := by
            rw [hprods] at hl
            exact (Option.some.injEq _ _).mp hl
          subst hps
          simp [List.lookup]
        · have hb : (ct == c) = false := by
            simp only [beq_eq_false_iff_ne, ne_eq]
            exact hceq
          rcases List.mem_cons.mp hct with he | hm
          · exact absurd he hceq
          · simp only [List.lookup, hb]
            exact ih hrec hm

theorem lookup_map_names {prods : List Product} {p : String} {pi : Product}
    (hfind : prods.find? (fun q => q.name == p) = some pi)
    {α : Type} (x : α) :
    (prods.map fun q => (q.name, x)).lookup p = some x := by
  induction prods with
  | nil => simp at hfind
  | cons q rest ih =>
    cases hq : (q.name == p) with
    | true =>
      have hb : (p == q.name) = true := by
        have h1 := eq_of_beq hq
        simp [h1]
      simp [List.lookup, hb]
    | false =>
      have hfind2 : rest.find? (fun q => q.name == p) = some pi := by
        rw [List.find?_cons_of_neg _ (by simp [hq])] at hfind
        exact hfind
      have hb : (p == q.name) = false := by
        simp only [beq_eq_false_iff_ne, ne_eq]
        exact fun hc => (ne_of_beq_false hq) hc.symm
      simp only [List.map, List.lookup, hb]
      exact ih hfind2

theorem usedLookup_init {md : MetadataData} {u : Used} {ct : String}
    {prods : List Product} {pi : Product} {p : String}
    (hinit : initUsed md = Except.ok u) (hct : ct ∈ md.content_types)
    (hprods : md.products.lookup ct = some prods)
    (hfind : prods.find? (fun q => q.name == p) = some pi) :
    usedLookup u ct p = Except.ok [] := by
  unfold usedLookup
  rw [initUsedGo_lookup hinit hct hprods]
  simp [lookup_map_names hfind]

/-- Lookup through a conditional per-key value map. -/
theorem lookup_map_cond {α : Type} (l : List (String × α)) (k : String)
    (f : String × α → α) (k' : String) :
    (l.map fun e => if e.1 = k then (e.1, f e) else e).lookup k' =
      if k' = k then (l.lookup k').map (fun v => f (k, v)) else l.lookup k' := by
  induction l with
  | nil => by_cases hk : k' = k <;> simp [List.lookup, hk]
  | cons e rest ih =>
    simp only [List.map_cons]
    by_cases hee : e.1 = k
    · rw [if_pos hee]
      by_cases hk' : k' = e.1
      · have hkk : k' = k := hk'.trans hee
        have hb : (k' == e.1) = true := by simp [hk']
        rw [if_pos hkk]
        simp only [List.lookup]
        rw [hb]
        have hev : e = (k, e.2) := by
          rw [← hee]
        rw [hev]
        rfl
      · have hkk : ¬ k' = k := fun hc => hk' (hc.trans hee.symm)
        have hb : (k' == e.1) = false := by simp [hk']
        rw [if_neg hkk]
        simp only [List.lookup]
        rw [hb, ih, if_neg hkk]
    · rw [if_neg hee]
      by_cases hk' : k' = e.1
      · have hkk : ¬ k' = k := fun hc => hee (hk'.symm.trans hc)
        have hb : (k' == e.1) = true := by simp [hk']
        rw [if_neg hkk]
        simp only [List.lookup]
        rw [hb]
      · have hb : (k' == e.1) = false := by simp [hk']
        simp only [List.lookup]
        rw [hb, ih]

theorem usedLookup_append {used : Used} {ct p : String} {ul : List String}
    (h : usedLookup used ct p = Except.ok ul) (img : String) :
    usedLookup (usedAppend used ct p img) ct p = Except.ok (ul ++ [img]) := by
  unfold usedLookup at h ⊢
  cases hl : used.lookup ct with
  | none => rw [hl] at h; simp at h
  | some inner =>
    rw [hl] at h
    dsimp only at h
    cases hi : inner.lookup p with
    | none => rw [hi] at h; simp at h
    | some l0 =>
      rw [hi] at h
      simp only [Except.ok.injEq] at h
      subst h
      unfold usedAppend
      rw [lookup_map_cond used ct _ ct, if_pos rfl, hl]
      simp only [Option.map_some']
      rw [lookup_map_cond inner p _ p, if_pos rfl, hi]
      simp

/-- The concrete-product branch of `_get_available_images` for a
`prevent_duplicates` product: the pool is the product's images minus
the post's used list. -/
theorem getAvailable_concrete {md : MetadataData} {ct : String}
    {si : StructureInfo} (hsi : md.structure_.lookup ct = some si)
    {p : String} (hstrip : pyStrip p = p) (hnall : p ≠ "all")
    (hlk : ∀ img ∈ si.images, (md.images.lookup img).isSome)
    {prods : List Product} (hprods : md.products.lookup ct = some prods)
    {pi : Product} (hfind : prods.find? (fun q => q.name == p) = some pi)
    (hpd : pi.prevent_duplicates = true)
    {used : Used} {ul : List String} (hused : usedLookup used ct p = Except.ok ul)
    (allowAll : Bool) :
    getAvailableImages md ct p used allowAll =
      Except.ok ((si.images.filter (imgHasProduct md.images p)).filter
        (fun img => !(ul.contains img))) := by
  have hb : (p == "all") = false := by
    simp only [beq_eq_false_iff_ne, ne_eq]
    exact hnall
  have hspd : shouldPreventDuplicates md ct p = Except.ok true := by
    unfold shouldPreventDuplicates
    rw [hstrip]
    dsimp only
    rw [hprods]
    dsimp only
    rw [hfind]
    dsimp only
    rw [hpd]
  unfold getAvailableImages
  rw [hstrip]
  dsimp only
  rw [hsi]
  simp only [Bind.bind, Except.bind, pure, Except.pure, hb,
    Bool.false_eq_true, if_false]
  rw [filterByProduct_ok hlk]
  dsimp only
  rw [hspd]
  dsimp only
  rw [if_pos rfl]
  exact excludeUsed_ok hused _

theorem shouldPrevent_true {md : MetadataData} {ct p : String}
    {prods : List Product} {pi : Product}
    (hstrip : pyStrip p = p) (hprods : md.products.lookup ct = some prods)
    (hfind : prods.find? (fun q => q.name == p) = some pi)
    (hpd : pi.prevent_duplicates = true) :
    shouldPreventDuplicates md ct p = Except.ok true := by
  unfold shouldPreventDuplicates
  rw [hstrip]
  dsimp only
  rw [hprods]
  dsimp only
  rw [hfind]
  dsimp only
  rw [hpd]

/-- Pool exhaustion for a tracked pairing: the remaining pool is empty,
so the slot raises naming the content type and product. -/
theorem selectImage_exhausted {md : MetadataData} {ct : String}
    {si : StructureInfo} {p : String} {prods : List Product} {pi : Product}
    {used : Used} {ul : List String}
    (hsi : md.structure_.lookup ct = some si)
    (hstrip : pyStrip p = p) (hnall : p ≠ "all")
    (hlk : ∀ img ∈ si.images, (md.images.lookup img).isSome)
    (hprods : md.products.lookup ct = some prods)
    (hfind : prods.find? (fun q => q.name == p) = some pi)
    (hpd : pi.prevent_duplicates = true)
    (hused : usedLookup used ct p = Except.ok ul)
    (hav : (si.images.filter (imgHasProduct md.images p)).filter
        (fun img => !(ul.contains img)) = [])
    (allowAll : Bool) (pick : Nat) :
    selectImage md ct p used allowAll pick =
      Except.error ("No available images for " ++ ct ++ " - " ++ p) := by
  unfold selectImage
  rw [getAvailable_concrete hsi hstrip hnall hlk hprods hfind hpd hused allowAll]
  simp only [Bind.bind, Except.bind]
  rw [dif_pos hav]

/-- Successful selection for a tracked pairing: the pick is drawn from
the remaining pool and recorded in the exclusion table. -/
theorem selectImage_picks {md : MetadataData} {ct : String}
    {si : StructureInfo} {p : String} {prods : List Product} {pi : Product}
    {used : Used} {ul : List String} {x : String} {rest : List String}
    (hsi : md.structure_.lookup ct = some si)
    (hstrip : pyStrip p = p) (hnall : p ≠ "all")
    (hlk : ∀ img ∈ si.images, (md.images.lookup img).isSome)
    (hprods : md.products.lookup ct = some prods)
    (hfind : prods.find? (fun q => q.name == p) = some pi)
    (hpd : pi.prevent_duplicates = true)
    (hused : usedLookup used ct p = Except.ok ul)
    (hav : (si.images.filter (imgHasProduct md.images p)).filter
        (fun img => !(ul.contains img)) = x :: rest)
    (allowAll : Bool) (pick : Nat) :
    selectImage md ct p used allowAll pick =
      Except.ok ((x :: rest).get ⟨pick % (x :: rest).length,
          Nat.mod_lt _ (Nat.succ_pos _)⟩,
        usedAppend used ct p ((x :: rest).get ⟨pick % (x :: rest).length,
          Nat.mod_lt _ (Nat.succ_pos _)⟩)) := by
  unfold selectImage
  rw [getAvailable_concrete hsi hstrip hnall hlk hprods hfind hpd hused allowAll]
  simp only [Bind.bind, Except.bind]
  rw [hav, dif_neg (by simp)]
  rw [shouldPrevent_true hstrip hprods hfind hpd]
  simp only [Bind.bind, Except.bind, pure, Except.pure, if_true]

end SelectionLemmas

/-- Claim C1: for every metadata object on which `validate()` succeeds,
and for every content-type/product pair in it, the product's stored
`current_count` after the call equals the number of images of that
content type assigned exactly that product plus the number of that
content type's images assigned the wildcard "all", regardless of the
count stored before the call (the pass overwrites it).  The hypotheses
`p.name ≠ "all"` and `p.name ≠ ""` encode the data model: "all" is a
reserved wildcard, never a declared product, and product names are
non-empty identifiers from the caption source. -/
theorem C1_validate_reconciles_counts (cfg : VCtx) (data : MetadataData)
    (st0 st' : VState) (d' : MetadataData)
    (hok : validate cfg data st0 = Except.ok (true, d', st'))
    (ct : String) (prods : List Product) (hmem : (ct, prods) ∈ d'.products)
    (p : Product) (hp : p ∈ prods)
    (hall : p.name ≠ "all") (hne : p.name ≠ "") :
    p.current_count =
      (countExact d'.images ct p.name : Int) +
        (countExact d'.images ct "all" : Int) := by
  obtain ⟨stA, b, stB, hpc⟩ := validate_true_counts hok
  obtain ⟨-, himg, -, tbl, hfp, hprods⟩ := validateProductCounts_ok hpc
  rw [hprods] at hmem
  obtain ⟨e0, hmem0, heq⟩ := List.mem_map.mp hmem
  obtain ⟨ct0, prods0⟩ := e0
  simp only [Prod.mk.injEq] at heq
  obtain ⟨hct, hpr⟩ := heq
  subst hct
  rw [← hpr] at hp
  obtain ⟨q, hq0, hqe⟩ := List.mem_map.mp hp
  have hname : p.name = q.name := by rw [← hqe]
  have hcc : p.current_count =
      (cnt tbl ct0 q.name : Int) + (allCount data.images ct0 : Int) := by
    rw [← hqe]
  rw [hcc, hname]
  have h1 : cnt tbl ct0 q.name = countExact data.images ct0 q.name := by
    have h2 := firstPass_cnt hfp ct0 q.name (hname ▸ hne) (hname ▸ hall)
    rw [cnt_initCounts] at h2
    omega
  rw [h1, himg]
  rfl

/-- Claim C2: within one post, each selected image of a
`prevent_duplicates` pairing is recorded and excluded from later
selections of that pairing, so with exactly 2 eligible images (`a` and
`b`) the third selection in the same post raises a fatal error while
the first two succeed; and because the exclusion table is rebuilt by
`runPost` for every post, a post needing one image of the pairing can
independently receive either of the two images, whatever happened in
other posts. -/
theorem C2_per_post_duplicate_prevention
    (md : MetadataData) (ct p : String) (si : StructureInfo)
    (prods : List Product) (pi : Product) (u0 : Used)
    (hsi : md.structure_.lookup ct = some si)
    (hstrip : pyStrip p = p) (hnall : p ≠ "all")
    (hlk : ∀ img ∈ si.images, (md.images.lookup img).isSome)
    (hprods : md.products.lookup ct = some prods)
    (hfind : prods.find? (fun q => q.name == p) = some pi)
    (hpd : pi.prevent_duplicates = true)
    (hct : ct ∈ md.content_types)
    (hinit : initUsed md = Except.ok u0)
    (a b : String) (hpool : si.images.filter (imgHasProduct md.images p) = [a, b])
    (hab : a ≠ b) :
    (∀ k1 k2 k3 : Nat,
        runPost md false [(ct, p), (ct, p), (ct, p)] [k1, k2, k3] =
          Except.error ("No available images for " ++ ct ++ " - " ++ p)) ∧
    (∀ k1 k2 : Nat, ∃ imgs,
        runPost md false [(ct, p), (ct, p)] [k1, k2] = Except.ok imgs) ∧
    (∀ img, img ∈ [a, b] → ∃ k, runPost md false [(ct, p)] [k] = Except.ok [img]) := by
  have hu0 : usedLookup u0 ct p = Except.ok [] :=
    usedLookup_init hinit hct hprods hfind
  have hba : (b == a) = false := by
    simp only [beq_eq_false_iff_ne, ne_eq]
    exact fun hc => hab hc.symm
  have haa : (a == a) = true := by simp
  have hbb : (b == b) = true := by simp
  have hab2 : (a == b) = false := by
    simp only [beq_eq_false_iff_ne, ne_eq]
    exact hab
  have hbmem : ¬ b = a := fun hc => hab hc.symm
  have hav0 : (si.images.filter (imgHasProduct md.images p)).filter
      (fun img => !(([] : List String).contains img)) = [a, b] := by
    rw [hpool]
    simp [List.filter_cons, List.filter_nil, List.contains, List.elem_eq_mem]
  have havA : (si.images.filter (imgHasProduct md.images p)).filter
      (fun img => !(([a] : List String).contains img)) = [b] := by
    rw [hpool]
    simp [List.filter_cons, List.filter_nil, List.contains, List.elem_eq_mem,
      hbmem]
  have havB : (si.images.filter (imgHasProduct md.images p)).filter
      (fun img => !(([b] : List String).contains img)) = [a] := by
    rw [hpool]
    simp [List.filter_cons, List.filter_nil, List.contains, List.elem_eq_mem,
      hab]
  have havAB : (si.images.filter (imgHasProduct md.images p)).filter
      (fun img => !(([a, b] : List String).contains img)) = [] := by
    rw [hpool]
    simp [List.filter_cons, List.filter_nil, List.contains, List.elem_eq_mem]
  have havBA : (si.images.filter (imgHasProduct md.images p)).filter
      (fun img => !(([b, a] : List String).contains img)) = [] := by
    rw [hpool]
    simp [List.filter_cons, List.filter_nil, List.contains, List.elem_eq_mem]
  have hcase : ∀ k : Nat, k % 2 = 0 ∨ k % 2 = 1 := fun k => Nat.mod_two_eq_zero_or_one k
  have hget : ∀ (k : Nat)
      (h2 : k % ([a, b] : List String).length < ([a, b] : List String).length),
      ([a, b] : List String).get ⟨k % ([a, b] : List String).length, h2⟩ =
        if k % 2 = 0 then a else b := by
    intro k h2
    generalize hgen : k % ([a, b] : List String).length = n at h2 ⊢
    have h2n : n < 2 := h2
    rcases (by omega : n = 0 ∨ n = 1) with rfl | rfl
    · rw [if_pos (show k % 2 = 0 from hgen)]
      rfl
    · rw [if_neg (by
        have hx : k % 2 = 1 := hgen
        omega)]
      rfl
  -- first selection of a fresh post: the full pool
  have hsel1 : ∀ k : Nat, selectImage md ct p u0 false k =
      Except.ok ((if k % 2 = 0 then a else b),
        usedAppend u0 ct p (if k % 2 = 0 then a else b)) := by
    intro k
    rw [selectImage_picks hsi hstrip hnall hlk hprods hfind hpd hu0 hav0 false k]
    rw [hget k]
  -- bookkeeping after the first and second selections
  have huA : usedLookup (usedAppend u0 ct p a) ct p = Except.ok [a] :=
    usedLookup_append hu0 a
  have huB : usedLookup (usedAppend u0 ct p b) ct p = Except.ok [b] :=
    usedLookup_append hu0 b
  have huAB : usedLookup (usedAppend (usedAppend u0 ct p a) ct p b) ct p =
      Except.ok [a, b] := usedLookup_append huA b
  have huBA : usedLookup (usedAppend (usedAppend u0 ct p b) ct p a) ct p =
      Except.ok [b, a] := usedLookup_append huB a
  have hsel2A : ∀ k : Nat, selectImage md ct p (usedAppend u0 ct p a) false k =
      Except.ok (b, usedAppend (usedAppend u0 ct p a) ct p b) := by
    intro k
    have h0 := selectImage_picks hsi hstrip hnall hlk hprods hfind hpd huA havA false k
    simpa [Nat.mod_one] using h0
  have hsel2B : ∀ k : Nat, selectImage md ct p (usedAppend u0 ct p b) false k =
      Except.ok (a, usedAppend (usedAppend u0 ct p b) ct p a) := by
    intro k
    have h0 := selectImage_picks hsi hstrip hnall hlk hprods hfind hpd huB havB false k
    simpa [Nat.mod_one] using h0
  have hsel3A : ∀ k : Nat,
      selectImage md ct p (usedAppend (usedAppend u0 ct p a) ct p b) false k =
        Except.error ("No available images for " ++ ct ++ " - " ++ p) := by
    intro k
    exact selectImage_exhausted hsi hstrip hnall hlk hprods hfind hpd huAB havAB false k
  have hsel3B : ∀ k : Nat,
      selectImage md ct p (usedAppend (usedAppend u0 ct p b) ct p a) false k =
        Except.error ("No available images for " ++ ct ++ " - " ++ p) := by
    intro k
    exact selectImage_exhausted hsi hstrip hnall hlk hprods hfind hpd huBA havBA false k
  refine ⟨?_, ?_, ?_⟩
  · intro k1 k2 k3
    unfold runPost
    rw [hinit]
    simp only [Bind.bind, Except.bind]
    unfold runSlots
    simp only [List.headD, List.tail]
    rw [hsel1 k1]
    simp only [Bind.bind, Except.bind]
    rcases hcase k1 with hk | hk
    · rw [if_pos hk]
      unfold runSlots
      simp only [List.headD, List.tail]
      rw [hsel2A k2]
      simp only [Bind.bind, Except.bind]
      unfold runSlots
      simp only [List.headD, List.tail]
      rw [hsel3A k3]
      simp [Bind.bind, Except.bind]
    · rw [if_neg (by omega)]
      unfold runSlots
      simp only [List.headD, List.tail]
      rw [hsel2B k2]
      simp only [Bind.bind, Except.bind]
      unfold runSlots
      simp only [List.headD, List.tail]
      rw [hsel3B k3]
      simp [Bind.bind, Except.bind]
  · intro k1 k2
    unfold runPost
    rw [hinit]
    simp only [Bind.bind, Except.bind]
    unfold runSlots
    simp only [List.headD, List.tail]
    rw [hsel1 k1]
    simp only [Bind.bind, Except.bind]
    rcases hcase k1 with hk | hk
    · rw [if_pos hk]
      unfold runSlots
      simp only [List.headD, List.tail]
      rw [hsel2A k2]
      simp only [Bind.bind, Except.bind]
      unfold runSlots
      simp only [Bind.bind, Except.bind, pure, Except.pure]
      exact ⟨[a, b], rfl⟩
    · rw [if_neg (by omega)]
      unfold runSlots
      simp only [List.headD, List.tail]
      rw [hsel2B k2]
      simp only [Bind.bind, Except.bind]
      unfold runSlots
      simp only [Bind.bind, Except.bind, pure, Except.pure]
      exact ⟨[b, a], rfl⟩
  · intro img hm
    rcases List.mem_cons.mp hm with he | hm2
    · refine ⟨0, ?_⟩
      unfold runPost
      rw [hinit]
      simp only [Bind.bind, Except.bind]
      unfold runSlots
      simp only [List.headD, List.tail]
      rw [hsel1 0]
      simp only [Bind.bind, Except.bind]
      unfold runSlots
      simp only [Bind.bind, Except.bind, pure, Except.pure]
      rw [he]
      simp
    · have he : img = b := by simpa using hm2
      refine ⟨1, ?_⟩
      unfold runPost
      rw [hinit]
      simp only [Bind.bind, Except.bind]
      unfold runSlots
      simp only [List.headD, List.tail]
      rw [hsel1 1]
      simp only [Bind.bind, Except.bind]
      unfold runSlots
      simp only [Bind.bind, Except.bind, pure, Except.pure]
      rw [he]
      simp

/-- Concrete metadata for the C2 witness: one `prevent_duplicates`
product with exactly two eligible images. -/
def mdC2 : MetadataData :=
  { keys := REQUIRED_KEYS_ORDER
    content_types := ["hook"]
    products := [("hook", [⟨"mag", true, 0, 2⟩])]
    structure_ := [("hook", ⟨["base", "hook"], ["a.png", "b.png"]⟩)]
    images := [("a.png", ⟨"hook", ⟨10, 10⟩, some "mag", "default", none⟩),
               ("b.png", ⟨"hook", ⟨10, 10⟩, some "mag", "default", none⟩)]
    untagged := []
    settings := [("hook", [("content", none), ("[mag]", none)])] }

/-- Witness for C2 at `mdC2`: three selections of the pairing in one
post exhaust the 2-image pool, two succeed, and a 1-slot post can be
given either image. -/
theorem C2_per_post_duplicate_prevention_witness :
    (∀ k1 k2 k3 : Nat,
        runPost mdC2 false [("hook", "mag"), ("hook", "mag"), ("hook", "mag")]
          [k1, k2, k3] =
          Except.error ("No available images for " ++ "hook" ++ " - " ++ "mag")) ∧
    (∀ k1 k2 : Nat, ∃ imgs,
        runPost mdC2 false [("hook", "mag"), ("hook", "mag")] [k1, k2] =
          Except.ok imgs) ∧
    (∀ img, img ∈ ["a.png", "b.png"] →
        ∃ k, runPost mdC2 false [("hook", "mag")] [k] = Except.ok [img]) :=
  C2_per_post_duplicate_prevention mdC2 "hook" "mag"
    ⟨["base", "hook"], ["a.png", "b.png"]⟩ [⟨"mag", true, 0, 2⟩]
    ⟨"mag", true, 0, 2⟩ [("hook", [("mag", [])])]
    rfl rfl (by decide) (by decide) rfl rfl rfl (by decide) rfl
    "a.png" "b.png" rfl (by decide)

/-- Case split on the pool construction of `_get_available_images`:
every pool member's record exists, and its product is the requested
(stripped) concrete name, or — for a wildcard request — some declared
product's name. -/
theorem getAvailable_cases {md : MetadataData} {ct req : String} {used : Used}
    {allowAll : Bool} {avail : List String}
    (h : getAvailableImages md ct req used allowAll = Except.ok avail)
    {img : String} (hm : img ∈ avail) :
    ∃ d, md.images.lookup img = some d ∧
      ((pyStrip req ≠ "all" ∧ d.product = some (pyStrip req)) ∨
       (pyStrip req = "all" ∧ ∃ prods2, md.products.lookup ct = some prods2 ∧
          ∃ q ∈ prods2, d.product = some q.name)) := by
  unfold getAvailableImages at h
  cases hsi : md.structure_.lookup ct with
  | none =>
    rw [hsi] at h
    simp [Bind.bind, Except.bind] at h
  | some si =>
    rw [hsi] at h
    simp only [Bind.bind, Except.bind, pure, Except.pure] at h
    by_cases hall : (pyStrip req == "all") = true
    · rw [if_pos hall] at h
      cases hp2 : md.products.lookup ct with
      | none => rw [hp2] at h; simp at h
      | some prods2 =>
        rw [hp2] at h
        obtain ⟨q, hq, d, hd, hprod⟩ := allPool_mem h hm
        exact ⟨d, hd, Or.inr ⟨eq_of_beq hall, prods2, rfl, q, hq, hprod⟩⟩
    · rw [if_neg hall] at h
      cases hf : filterByProduct md.images (pyStrip req) si.images with
      | error e => rw [hf] at h; simp [Bind.bind, Except.bind] at h
      | ok matching =>
        rw [hf] at h
        simp only [Bind.bind, Except.bind] at h
        cases hsp : shouldPreventDuplicates md ct (pyStrip req) with
        | error e => rw [hsp] at h; simp at h
        | ok prevent =>
          rw [hsp] at h
          dsimp only at h
          have hne : pyStrip req ≠ "all" := by
            intro hc
            rw [Bool.not_eq_true] at hall
            exact (ne_of_beq_false hall) hc
          cases prevent with
          | true =>
            rw [if_pos rfl] at h
            obtain ⟨-, d, hd, hprod⟩ := filterByProduct_mem hf (excludeUsed_mem h hm)
            exact ⟨d, hd, Or.inl ⟨hne, hprod⟩⟩
          | false =>
            simp only [Bool.false_eq_true, if_false, pure, Except.pure,
              Except.ok.injEq] at h
            rw [← h] at hm
            obtain ⟨-, d, hd, hprod⟩ := filterByProduct_mem hf hm
            exact ⟨d, hd, Or.inl ⟨hne, hprod⟩⟩

theorem shouldPrevent_ok {md : MetadataData} {ct : String}
    {prods : List Product} (hprods : md.products.lookup ct = some prods)
    (req : String) :
    ∃ b, shouldPreventDuplicates md ct req = Except.ok b := by
  unfold shouldPreventDuplicates
  rw [hprods]
  dsimp only
  cases hfind : prods.find? (fun q => q.name == pyStrip req) with
  | none => exact ⟨false, rfl⟩
  | some pi => exact ⟨pi.prevent_duplicates, rfl⟩

/-- Claim C10: when "all" is not a declared product name of a content
type, the concrete-product pool contains only images tagged with the
requested name, the wildcard pool only images tagged with declared
names — so an image tagged "all" never enters any candidate pool — and
a slot whose structure images are all tagged "all" always raises pool
exhaustion. -/
theorem C10_all_tagged_images_never_selectable
    (md : MetadataData) (ct : String) (prods : List Product)
    (hprods : md.products.lookup ct = some prods)
    (hna : ∀ q ∈ prods, q.name ≠ "all") :
    (∀ req (used : Used) (allowAll : Bool) avail img d,
        getAvailableImages md ct req used allowAll = Except.ok avail →
        img ∈ avail → md.images.lookup img = some d →
        pyStrip req ≠ "all" → d.product = some (pyStrip req)) ∧
    (∀ req (used : Used) (allowAll : Bool) avail img d,
        getAvailableImages md ct req used allowAll = Except.ok avail →
        img ∈ avail → md.images.lookup img = some d →
        pyStrip req = "all" → ∃ q ∈ prods, d.product = some q.name) ∧
    (∀ req (used : Used) (allowAll : Bool) avail img d,
        getAvailableImages md ct req used allowAll = Except.ok avail →
        img ∈ avail → md.images.lookup img = some d →
        d.product ≠ some "all") ∧
    (∀ si, md.structure_.lookup ct = some si →
      (∀ img ∈ si.images,
        ∃ d, md.images.lookup img = some d ∧ d.product = some "all") →
      ∀ req (used : Used) (allowAll : Bool) (pick : Nat),
        selectImage md ct req used allowAll pick =
          Except.error ("No available images for " ++ ct ++ " - " ++ req)) := by
  have hcase : ∀ req (used : Used) (allowAll : Bool) avail img d,
      getAvailableImages md ct req used allowAll = Except.ok avail →
      img ∈ avail → md.images.lookup img = some d →
      ((pyStrip req ≠ "all" ∧ d.product = some (pyStrip req)) ∨
       (pyStrip req = "all" ∧ ∃ q ∈ prods, d.product = some q.name)) := by
    intro req used allowAll avail img d h hm hd
    obtain ⟨d2, hd2, hdisj⟩ := getAvailable_cases h hm
    rw [hd] at hd2
    obtain rfl : d = d2 := by
      exact (Option.some.injEq _ _).mp hd2
    rcases hdisj with ⟨h1, h2⟩ | ⟨h1, prods2, hp2, q, hq, hprod⟩
    · exact Or.inl ⟨h1, h2⟩
    · rw [hprods] at hp2
      obtain rfl : prods = prods2 := (Option.some.injEq _ _).mp hp2
      exact Or.inr ⟨h1, q, hq, hprod⟩
  refine ⟨?_, ?_, ?_, ?_⟩
  · intro req used allowAll avail img d h hm hd hne
    rcases hcase req used allowAll avail img d h hm hd with ⟨-, h2⟩ | ⟨h1, -⟩
    · exact h2
    · exact absurd h1 hne
  · intro req used allowAll avail img d h hm hd hall
    rcases hcase req used allowAll avail img d h hm hd with ⟨h1, -⟩ | ⟨-, h2⟩
    · exact absurd hall h1
    · exact h2
  · intro req used allowAll avail img d h hm hd
    rcases hcase req used allowAll avail img d h hm hd with ⟨h1, h2⟩ | ⟨-, q, hq, hprod⟩
    · rw [h2]
      intro hc
      exact h1 ((Option.some.injEq _ _).mp hc)
    · rw [hprod]
      intro hc
      exact (hna q hq) ((Option.some.injEq _ _).mp hc)
  · intro si hsi hallimg req used allowAll pick
    have hav : getAvailableImages md ct req used allowAll = Except.ok [] := by
      unfold getAvailableImages
      rw [hsi]
      simp only [Bind.bind, Except.bind, pure, Except.pure]
      by_cases hall : (pyStrip req == "all") = true
      · rw [if_pos hall, hprods]
        exact allPool_nil hallimg hna
      · rw [if_neg hall]
        have hne : pyStrip req ≠ "all" := by
          intro hc
          rw [Bool.not_eq_true] at hall
          exact (ne_of_beq_false hall) hc
        have hsome : ∀ img ∈ si.images, (md.images.lookup img).isSome := by
          intro img hmem
          obtain ⟨d, hd, -⟩ := hallimg img hmem
          simp [hd]
        have hfe : si.images.filter (imgHasProduct md.images (pyStrip req)) = [] := by
          apply List.filter_eq_nil_iff.mpr
          intro img hmem
          obtain ⟨d, hd, hp⟩ := hallimg img hmem
          simp [imgHasProduct, hd, hp]
          exact fun hc => hne hc.symm
        rw [filterByProduct_ok hsome, hfe]
        simp only [Bind.bind, Except.bind]
        obtain ⟨bb, hsp⟩ := shouldPrevent_ok hprods (pyStrip req)
        rw [hsp]
        dsimp only
        cases bb with
        | true => rw [if_pos rfl]; rfl
        | false => simp
    unfold selectImage
    rw [hav]
    simp only [Bind.bind, Except.bind]
    simp

/-- Concrete metadata for the C10 witness: the only image of `hook` is
tagged "all", which is not a declared product. -/
def mdC10 : MetadataData :=
  { keys := REQUIRED_KEYS_ORDER
    content_types := ["hook"]
    products := [("hook", [⟨"mag", false, 0, 1⟩])]
    structure_ := [("hook", ⟨["base", "hook"], ["a.png"]⟩)]
    images := [("a.png", ⟨"hook", ⟨10, 10⟩, some "all", "default", none⟩)]
    untagged := []
    settings := [("hook", [("content", none), ("[mag]", none)])] }

/-- Witness for C10 at `mdC10`: both a concrete and a wildcard slot on
an "all"-only content type raise pool exhaustion. -/
theorem C10_all_tagged_images_never_selectable_witness :
    selectImage mdC10 "hook" "mag" [("hook", [("mag", [])])] false 0 =
      Except.error ("No available images for " ++ "hook" ++ " - " ++ "mag") ∧
    selectImage mdC10 "hook" "all" [("hook", [("mag", [])])] true 0 =
      Except.error ("No available images for " ++ "hook" ++ " - " ++ "all") :=
  ⟨(C10_all_tagged_images_never_selectable mdC10 "hook" [⟨"mag", false, 0, 1⟩]
      rfl (by decide)).2.2.2 ⟨["base", "hook"], ["a.png"]⟩ rfl (by decide)
      "mag" [("hook", [("mag", [])])] false 0,
   (C10_all_tagged_images_never_selectable mdC10 "hook" [⟨"mag", false, 0, 1⟩]
      rfl (by decide)).2.2.2 ⟨["base", "hook"], ["a.png"]⟩ rfl (by decide)
      "all" [("hook", [("mag", [])])] true 0⟩

/-- A concrete valid metadata object for the C1 witness: one content
type `hook`, one product `mag` whose stored count (5) is wrong and gets
overwritten with the recomputed 1. -/
def mdC1 : MetadataData :=
  { keys := REQUIRED_KEYS_ORDER
    content_types := ["hook"]
    products := [("hook", [⟨"mag", false, 0, 5⟩])]
    structure_ := [("hook", ⟨["base", "hook"], ["a.png"]⟩)]
    images := [("a.png", ⟨"hook", ⟨10, 10⟩, some "mag", "default", none⟩)]
    untagged := []
    settings := [("hook", [("content", none), ("[mag]", none)])] }

def cfgC1 : VCtx :=
  { strict := false
    fs_exists := fun p =>
      [["base", "hook"], ["base", "hook", "a.png"]].contains p
    fs_imageSize := fun p =>
      if p = ["base", "hook", "a.png"] then some ⟨10, 10⟩ else none
    sv_validate := fun _ => true
    sv_errors := fun _ => []
    captionsRead := Except.ok ()
    expected_content_types := ["hook"]
    expected_products := [("hook", ["mag"])] }

/-- The metadata after a non-strict `validate` of `mdC1`: the stored
count 5 has been overwritten with the recomputed 1. -/
def mdC1out : MetadataData :=
  { mdC1 with products := [("hook", [⟨"mag", false, 0, 1⟩])] }

/-- Witness for C1 at `mdC1`: `validate` succeeds (with a count
warning) and the reconciled count equals the recomputed value. -/
theorem C1_validate_reconciles_counts_witness :
    (⟨"mag", false, 0, 1⟩ : Product).current_count =
      (countExact mdC1out.images "hook" "mag" : Int) +
        (countExact mdC1out.images "hook" "all" : Int) :=
  C1_validate_reconciles_counts cfgC1 mdC1 ⟨[], [], []⟩
    ⟨[], ["Incorrect count for hook/mag"], ["Incorrect count for hook/mag"]⟩
    mdC1out rfl "hook" [⟨"mag", false, 0, 1⟩] (by decide)
    ⟨"mag", false, 0, 1⟩ (by decide) (by decide) (by decide)

/-- Claim C3: generation-time settings resolution uses only the level
pinned by the image's own `settings_source` and never falls back: a
null `"content"` blob (source `content`), null own settings (source
`custom`), or no group containing the product with non-null settings
(source `product`) each raise an error instead of returning another
level's settings. -/
theorem C3_pinned_level_no_fallback
    (md : MetadataData) (dt : Except String Blob) (ct product name : String) :
    (∀ d ctset, md.images.lookup (pathName name) = some d →
      d.settings_source = "content" →
      md.settings.lookup ct = some ctset →
      ctset.lookup "content" = some none →
      isErr (getImageSettings md dt ct product name) = true) ∧
    (∀ d, md.images.lookup (pathName name) = some d →
      d.settings_source = "custom" → d.settings = none →
      isErr (getImageSettings md dt ct product name) = true) ∧
    (∀ d ctset, md.images.lookup (pathName name) = some d →
      d.settings_source = "product" →
      md.settings.lookup ct = some ctset →
      (∀ e ∈ ctset, e.1 ≠ "content" → product ∈ parseGroup e.1 → e.2 = none) →
      isErr (getImageSettings md dt ct product name) = true) := by
  refine ⟨?_, ?_, ?_⟩
  · intro d ctset himg hsrc hctset hnull
    simp [getImageSettings, getImageSettingsInner, himg, hsrc, hctset, hnull,
      isErr, Bind.bind, Except.bind, pure, Except.pure]
  · intro d himg hsrc hset
    simp [getImageSettings, getImageSettingsInner, himg, hsrc, hset,
      isErr, Bind.bind, Except.bind, pure, Except.pure]
  · intro d ctset himg hsrc hctset hgroups
    have hfind : ctset.find? (fun e =>
        e.1 != "content" && decide (product ∈ parseGroup e.1) && e.2.isSome) =
          none := by
      apply List.find?_eq_none.mpr
      intro e he
      by_cases h1 : e.1 = "content"
      · simp [h1]
      · by_cases h2 : product ∈ parseGroup e.1
        · have h3 : e.2 = none := hgroups e he h1 h2
          simp [h3]
        · simp [h1, h2]
    simp [getImageSettings, getImageSettingsInner, himg, hsrc, hctset, hfind,
      isErr, Bind.bind, Except.bind, pure, Except.pure]

/-- Concrete metadata for the C3 witness: three images pinned to each
problematic level. -/
def mdC3 : MetadataData :=
  { keys := REQUIRED_KEYS_ORDER
    content_types := ["hook"]
    products := [("hook", [⟨"mag", false, 0, 3⟩])]
    structure_ := [("hook", ⟨["base", "hook"], ["a.png", "b.png", "c.png"]⟩)]
    images := [("a.png", ⟨"hook", ⟨10, 10⟩, some "mag", "content", none⟩),
               ("b.png", ⟨"hook", ⟨10, 10⟩, some "mag", "custom", none⟩),
               ("c.png", ⟨"hook", ⟨10, 10⟩, some "mag", "product", none⟩)]
    untagged := []
    settings := [("hook", [("content", none), ("[mag]", none)])] }

/-- Witness for C3 at `mdC3`: all three pinned-level null cases raise. -/
theorem C3_pinned_level_no_fallback_witness :
    isErr (getImageSettings mdC3 (Except.ok "TPL") "hook" "mag" "a.png") = true ∧
    isErr (getImageSettings mdC3 (Except.ok "TPL") "hook" "mag" "b.png") = true ∧
    isErr (getImageSettings mdC3 (Except.ok "TPL") "hook" "mag" "c.png") = true :=
  ⟨(C3_pinned_level_no_fallback mdC3 (Except.ok "TPL") "hook" "mag" "a.png").1
      ⟨"hook", ⟨10, 10⟩, some "mag", "content", none⟩
      [("content", none), ("[mag]", none)] rfl rfl rfl rfl,
   (C3_pinned_level_no_fallback mdC3 (Except.ok "TPL") "hook" "mag" "b.png").2.1
      ⟨"hook", ⟨10, 10⟩, some "mag", "custom", none⟩ rfl rfl rfl,
   (C3_pinned_level_no_fallback mdC3 (Except.ok "TPL") "hook" "mag" "c.png").2.2
      ⟨"hook", ⟨10, 10⟩, some "mag", "product", none⟩
      [("content", none), ("[mag]", none)] rfl rfl rfl (by decide)⟩

/-- Claim C4: a payload whose top-level key order differs from the
fixed order fails immediately in every mode: `validate` reports exactly
the key-order error, leaves the data untouched (no other check runs),
and `load`'s validation branch returns `False`. -/
theorem C4_key_order_short_circuits (cfg : VCtx) (data : MetadataData)
    (st0 : VState) (h : data.keys ≠ REQUIRED_KEYS_ORDER) :
    validate cfg data st0 =
      Except.ok (false, data,
        ⟨["Metadata keys are not in correct order"], [], []⟩) ∧
    loadChecks cfg data st0 = false := by
  have hb : (data.keys != REQUIRED_KEYS_ORDER) = true := bne_iff_ne.mpr h
  constructor
  · unfold validate
    rw [if_pos hb]
    rfl
  · unfold loadChecks validate
    rw [if_pos hb]

/-- Payload with the first two keys swapped, for the C4 witness. -/
def mdC4 : MetadataData :=
  { mdC1 with keys := ["products", "content_types", "structure", "images",
    "untagged", "settings"] }

theorem C4_key_order_short_circuits_witness :
    validate cfgC1 mdC4 ⟨[], [], []⟩ =
      Except.ok (false, mdC4,
        ⟨["Metadata keys are not in correct order"], [], []⟩) ∧
    loadChecks cfgC1 mdC4 ⟨[], [], []⟩ = false :=
  C4_key_order_short_circuits cfgC1 mdC4 ⟨[], [], []⟩ (by decide)

/-- Claim C5: the validator resets its `errors`/`warnings`/`seen`
state at the start of every call — so re-validating unchanged data
produces identical results whatever state an earlier call left behind —
and `add_warning`'s key-based deduplication drops a warning whose key
was already recorded, even when a different check emits it with a
different message. -/
theorem C5_revalidation_identical_warnings :
    (∀ (cfg : VCtx) (data : MetadataData) (s1 s2 : VState),
        validate cfg data s1 = validate cfg data s2) ∧
    (∀ (st : VState) (m1 m2 key : String),
        addWarning (addWarning st m1 (some key)) m2 (some key) =
          addWarning st m1 (some key)) := by
  constructor
  · intro cfg data s1 s2
    rfl
  · intro st m1 m2 key
    by_cases hm : key ∈ st.seen_warnings
    · simp [addWarning, hm]
    · simp [addWarning, hm]

/-- Claim C6: `move_untagged_image` checks untagged membership, target
content-type validity, source existence and destination absence before
the rename; when any of them fails the call raises and both the
metadata store and the filesystem are exactly as before. -/
theorem C6_move_untagged_checks_before_rename
    (md : MetadataData) (fs : FS) (name target : String)
    (h : name ∉ md.untagged ∨ target ∉ md.content_types ∨
      (∃ si, md.structure_.lookup target = some si ∧
        (¬ fs.exists_ (si.path.dropLast ++ [name]) ∨
         fs.exists_ (si.path ++ [name])))) :
    (moveUntaggedImage md fs name target).1 = md ∧
    (moveUntaggedImage md fs name target).2.1 = fs ∧
    isErr (moveUntaggedImage md fs name target).2.2 = true := by
  unfold moveUntaggedImage
  by_cases hu : name ∈ md.untagged
  · by_cases hc : target ∈ md.content_types
    · have hd : ∃ si, md.structure_.lookup target = some si ∧
          (¬ fs.exists_ (si.path.dropLast ++ [name]) ∨
           fs.exists_ (si.path ++ [name])) := by
        rcases h with h1 | h2 | h3
        · exact absurd hu h1
        · exact absurd hc h2
        · exact h3
      obtain ⟨si, hsi, hcase⟩ := hd
      rw [hsi]
      rcases hcase with hsrc | hdest
      · have hb : fs.exists_ (si.path.dropLast ++ [name]) = false := by
          simpa using hsrc
        simp [hu, hc, hb, isErr]
      · by_cases hsrc2 : fs.exists_ (si.path.dropLast ++ [name]) = true
        · simp [hu, hc, hsrc2, hdest, isErr]
        · have hb : fs.exists_ (si.path.dropLast ++ [name]) = false := by
            simpa using hsrc2
          simp [hu, hc, hb, isErr]
    · simp [hu, hc, isErr]
  · simp [hu, isErr]

/-- Metadata and filesystem for the C6 witness: `z.png` is not in the
untagged list, so the move must fail without touching anything. -/
def mdC6 : MetadataData :=
  { keys := REQUIRED_KEYS_ORDER
    content_types := ["hook"]
    products := [("hook", [⟨"mag", false, 0, 0⟩])]
    structure_ := [("hook", ⟨["base", "hook"], []⟩)]
    images := []
    untagged := ["u.png"]
    settings := [("hook", [("content", none)])] }

def fsC6 : FS :=
  { files := [(["base", "u.png"], some ⟨10, 10⟩)], metadataWrites := [] }

theorem C6_move_untagged_checks_before_rename_witness :
    (moveUntaggedImage mdC6 fsC6 "z.png" "hook").1 = mdC6 ∧
    (moveUntaggedImage mdC6 fsC6 "z.png" "hook").2.1 = fsC6 ∧
    isErr (moveUntaggedImage mdC6 fsC6 "z.png" "hook").2.2 = true :=
  C6_move_untagged_checks_before_rename mdC6 fsC6 "z.png" "hook"
    (Or.inl (by decide))

/-- The stored `current_count` of a product, addressed by content type
and product name. -/
def prodCount (md : MetadataData) (ct pname : String) : Option Int :=
  (md.products.lookup ct).bind fun ps =>
    (ps.find? (fun p => p.name == pname)).map Product.current_count

/-- A successful `_update_product_count` touches only the addressed
content type's product list; images and untagged are untouched. -/
theorem updateProductCount_ok_parts {md : MetadataData} {ct p : String}
    {inc : Bool} {md' : MetadataData}
    (h : updateProductCount md ct p inc = Except.ok md') :
    md'.images = md.images ∧ md'.untagged = md.untagged ∧
    ∀ ct2, ct2 ≠ ct → md'.products.lookup ct2 = md.products.lookup ct2 := by
  unfold updateProductCount at h
  cases hl : md.products.lookup ct with
  | none => rw [hl] at h; exact absurd h (by simp)
  | some ps =>
    rw [hl] at h
    dsimp only at h
    injection h with h
    subst h
    refine ⟨rfl, rfl, fun ct2 hne => ?_⟩
    dsimp only
    rw [lookup_map_cond, if_neg hne]

/-- The image sitting in content type `a` used by the C7
counterexample. -/
def imgC7 : ImageData := ⟨"a", ⟨10, 10⟩, none, "default", none⟩

/-- Metadata for C7: product `p` is declared under both content types
`a` and `b` with stored count 0, and `i.png` belongs to `a`. -/
def mdC7 : MetadataData :=
  { keys := REQUIRED_KEYS_ORDER
    content_types := ["a", "b"]
    products := [("a", [⟨"p", false, 0, 0⟩]), ("b", [⟨"p", false, 0, 0⟩])]
    structure_ := [("a", ⟨["base", "a"], ["i.png"]⟩), ("b", ⟨["base", "b"], []⟩)]
    images := [("i.png", imgC7)]
    untagged := []
    settings := [("a", [("content", none)]), ("b", [("content", none)])] }

/-- Claim C7 counterexample: `i.png` actually lives in content type
`a`; the caller passes the stale content type `b`.  The call succeeds
and sets the record's product to `p`, yet the count of `p` under the
actual content type `a` stays 0 while the count under the
caller-supplied `b` becomes 1 — the increment does not happen within
the image's actual content type as the claim states. -/
theorem C7_counterexample :
    (updateImageProduct mdC7 "i.png" "b" "p").2 = Except.ok () ∧
    (updateImageProduct mdC7 "i.png" "b" "p").1.images.lookup "i.png" =
      some { imgC7 with product := some "p" } ∧
    prodCount mdC7 "a" "p" = some 0 ∧
    prodCount (updateImageProduct mdC7 "i.png" "b" "p").1 "a" "p" = some 0 ∧
    prodCount (updateImageProduct mdC7 "i.png" "b" "p").1 "b" "p" = some 1 :=
  ⟨rfl, rfl, rfl, rfl, rfl⟩

/-- Claim C7 (amended): `update_image_product` validates `new_product`
against the product set of the image's *actual* content type, raising
an error when it is absent there and leaving the store unchanged; but
the count adjustments go through the *caller-supplied* `content_type`:
every content type other than the caller-supplied one keeps its product
list unchanged (in particular the actual one, when the two differ), and
on success the image record's product is set to `new_product`. -/
theorem C7_counts_follow_caller_content_type
    (md : MetadataData) (name ctp new : String) (d : ImageData)
    (vps : List Product)
    (himg : md.images.lookup name = some d)
    (hv : md.products.lookup d.content_type = some vps) :
    ((vps.map Product.name).contains new = false →
      (updateImageProduct md name ctp new).1 = md ∧
      isErr (updateImageProduct md name ctp new).2 = true) ∧
    (∀ ct2, ct2 ≠ ctp →
      (updateImageProduct md name ctp new).1.products.lookup ct2 =
        md.products.lookup ct2) ∧
    ((updateImageProduct md name ctp new).2 = Except.ok () →
      (updateImageProduct md name ctp new).1.images.lookup name =
        some { d with product := some new }) := by
  unfold updateImageProduct
  rw [himg]
  dsimp only
  rw [hv]
  dsimp only
  cases hc : (vps.map Product.name).contains new with
  | false =>
    rw [Bool.not_false, if_pos rfl]
    exact ⟨fun _ => ⟨rfl, rfl⟩, fun ct2 _ => rfl, fun habs => by simp at habs⟩
  | true =>
    rw [Bool.not_true]
    refine ⟨fun hcf => (nomatch hcf), ?_⟩
    rw [if_neg (fun hh : false = true => nomatch hh)]
    cases ht : truthyStr d.product with
    | false =>
      rw [if_neg (fun hh : false = true => nomatch hh)]
      dsimp only
      cases hs2 : updateProductCount md ctp new true with
      | error e =>
        dsimp only
        exact ⟨fun ct2 _ => rfl, fun habs => by simp at habs⟩
      | ok md2 =>
        dsimp only
        obtain ⟨hi2, _, hp2⟩ := updateProductCount_ok_parts hs2
        refine ⟨fun ct2 hne => hp2 ct2 hne, fun _ => ?_⟩
        rw [hi2, lookup_map_cond md.images name
          (fun _ => { d with product := some new }) name, if_pos rfl, himg]
        rfl
    | true =>
      rw [if_pos rfl]
      cases hs1 : updateProductCount md ctp (d.product.getD "") false with
      | error e =>
        dsimp only
        exact ⟨fun ct2 _ => rfl, fun habs => by simp at habs⟩
      | ok md1 =>
        dsimp only
        obtain ⟨hi1, _, hp1⟩ := updateProductCount_ok_parts hs1
        cases hs2 : updateProductCount md1 ctp new true with
        | error e =>
          dsimp only
          exact ⟨fun ct2 hne => hp1 ct2 hne, fun habs => by simp at habs⟩
        | ok md2 =>
          dsimp only
          obtain ⟨hi2, _, hp2⟩ := updateProductCount_ok_parts hs2
          refine ⟨fun ct2 hne => (hp2 ct2 hne).trans (hp1 ct2 hne), fun _ => ?_⟩
          rw [hi2, hi1, lookup_map_cond md.images name
            (fun _ => { d with product := some new }) name, if_pos rfl, himg]
          rfl

theorem C7_counts_follow_caller_content_type_witness :
    (updateImageProduct mdC7 "i.png" "b" "p").1.products.lookup "a" =
      mdC7.products.lookup "a" ∧
    (updateImageProduct mdC7 "i.png" "b" "p").1.images.lookup "i.png" =
      some { imgC7 with product := some "p" } :=
  ⟨(C7_counts_follow_caller_content_type mdC7 "i.png" "b" "p" imgC7
      [⟨"p", false, 0, 0⟩] rfl rfl).2.1 "a" (by decide),
   (C7_counts_follow_caller_content_type mdC7 "i.png" "b" "p" imgC7
      [⟨"p", false, 0, 0⟩] rfl rfl).2.2 rfl⟩

/-- Claim C9: contrary to the claim, product-level `edit_settings` is
not implemented at all.  For every store, target product, settings blob
and non-empty content type, the call raises
`NotImplementedError("Product level settings not implemented yet")` and
leaves the store untouched; no group is merged, split or created.  (The
merge/split algorithm the claim describes exists in the source only as
comments, and `SettingsHandler.apply_product_settings` is likewise a
`pass` stub.) -/
theorem C9_product_level_not_implemented
    (md : MetadataData) (target : String) (data : Option Blob) (ct : String)
    (hct : ct ≠ "") :
    editSettings md "product" target data (some ct) =
      (md, Except.error
        "NotImplementedError: Product level settings not implemented yet") := by
  have h1 : truthyStr (some ct) = true := by
    cases hbe : ct == "" with
    | true => exact absurd (eq_of_beq hbe) hct
    | false => simp [truthyStr, hbe]
  unfold editSettings
  rw [h1]
  rfl

theorem C9_product_level_not_implemented_witness :
    editSettings mdC6 "product" "magnesium" none (some "hook") =
      (mdC6, Except.error
        "NotImplementedError: Product level settings not implemented yet") :=
  C9_product_level_not_implemented mdC6 "magnesium" none "hook" (by decide)

/-- One unfolding step of `charListLt` on two cons cells. -/
theorem charListLt_cons (a b : Char) (as bs : List Char) :
    charListLt (a :: as) (b :: bs) =
      if a < b then true else if b < a then false else charListLt as bs := rfl

theorem charListLt_nil_right : ∀ c : List Char, charListLt c [] = false := by
  intro c; cases c <;> rfl

/-- Transitivity of the non-strict order underlying `pyLt`: the
complement of the strict lexicographic comparison is transitive. -/
theorem charListLt_le_trans : ∀ (a b c : List Char),
    charListLt b a = false → charListLt c b = false →
    charListLt c a = false := by
  intro a
  induction a with
  | nil =>
    intro b c h1 h2
    exact charListLt_nil_right c
  | cons ah atl ih =>
    intro b c h1 h2
    cases b with
    | nil => exact (nomatch h1)
    | cons bh btl =>
      cases c with
      | nil => exact (nomatch h2)
      | cons ch ctl =>
        rw [charListLt_cons] at h1 h2 ⊢
        by_cases hba : bh < ah
        · rw [if_pos hba] at h1; exact (nomatch h1)
        · rw [if_neg hba] at h1
          by_cases hcb : ch < bh
          · rw [if_pos hcb] at h2; exact (nomatch h2)
          · rw [if_neg hcb] at h2
            by_cases hca : ch < ah
            · exact absurd hca
                (not_lt_of_le ((le_of_not_lt hba).trans (le_of_not_lt hcb)))
            · rw [if_neg hca]
              by_cases hac : ah < ch
              · rw [if_pos hac]
              · rw [if_neg hac]
                have e1 : ah = ch :=
                  le_antisymm (le_of_not_lt hca) (le_of_not_lt hac)
                have hba2 : bh ≤ ah := by
                  rw [e1]; exact le_of_not_lt hcb
                have e2 : ah = bh := le_antisymm (le_of_not_lt hba) hba2
                rw [← e2, if_neg (lt_irrefl ah)] at h1
                rw [← e2, ← e1, if_neg (lt_irrefl ah)] at h2
                exact ih btl ctl h1 h2

/-- `isSortedLe` is the chain of the complement of `pyLt`. -/
theorem isSortedLe_iff_chain (l : List String) :
    isSortedLe l = true ↔
      List.Chain' (fun a b => pyLt b a = false) l := by
  induction l with
  | nil => simp [isSortedLe]
  | cons a tail ih =>
    cases tail with
    | nil => simp [isSortedLe]
    | cons b rest =>
      simp only [isSortedLe, List.chain'_cons, Bool.and_eq_true,
        Bool.not_eq_true', ih]

/-- Filtering a sorted list keeps it sorted. -/
theorem isSortedLe_filter (l : List String) (p : String → Bool)
    (h : isSortedLe l = true) : isSortedLe (l.filter p) = true := by
  haveI : IsTrans String (fun a b : String => pyLt b a = false) :=
    ⟨fun a b c h1 h2 => charListLt_le_trans a.toList b.toList c.toList h1 h2⟩
  rw [isSortedLe_iff_chain] at h ⊢
  rw [List.chain'_iff_pairwise] at h ⊢
  exact h.sublist (List.filter_sublist l)

/-- Appending a fresh element keeps a duplicate-free list
duplicate-free. -/
theorem nodup_append_single {l : List String} {x : String}
    (h : l.Nodup) (hx : x ∉ l) : (l ++ [x]).Nodup := by
  simp [List.nodup_append, h, hx]

/-- Metadata for C8: `a.png` carries product `x`; the untagged list
`["b.png"]` is sorted and duplicate-free. -/
def mdC8 : MetadataData :=
  { keys := REQUIRED_KEYS_ORDER
    content_types := ["hook"]
    products := [("hook", [⟨"x", false, 0, 1⟩])]
    structure_ := [("hook", ⟨["base", "hook"], ["a.png"]⟩)]
    images := [("a.png", ⟨"hook", ⟨10, 10⟩, some "x", "default", none⟩),
               ("b.png", ⟨"hook", ⟨9, 9⟩, none, "default", none⟩)]
    untagged := ["b.png"]
    settings := [("hook", [("content", none)])] }

/-- The `edit_image` payload clearing the product of `a.png`. -/
def edC8 : EditData :=
  { product := some none, settings_source := none, settings := none }

/-- The `edit_image` payload assigning product `x` to `b.png`. -/
def edC8b : EditData :=
  { product := some (some "x"), settings_source := none, settings := none }

/-- Claim C8 counterexample: on a store whose untagged list `["b.png"]`
is sorted and duplicate-free, `edit_image("a.png", product=None)`
succeeds and appends `a.png` to the end of the untagged list without
re-sorting, leaving `["b.png", "a.png"]` — no longer sorted ascending.
The claim that every `edit_image` call preserves the sort order of
`untagged` is therefore false. -/
theorem C8_counterexample :
    isSortedLe mdC8.untagged = true ∧ mdC8.untagged.Nodup ∧
    (editImage mdC8 "a.png" edC8).2 = Except.ok () ∧
    (editImage mdC8 "a.png" edC8).1.untagged = ["b.png", "a.png"] ∧
    isSortedLe (editImage mdC8 "a.png" edC8).1.untagged = false :=
  ⟨rfl, by decide, rfl, rfl, rfl⟩

/-- Claim C8 (amended): `edit_image` always keeps the untagged list
duplicate-free, and keeps it sorted in every case except the one the
counterexample exhibits: when the payload has no `product` key, or sets
the product to a non-null value, or names an image already in the
untagged list, a sorted duplicate-free untagged list stays sorted and
duplicate-free.  Only clearing the product of an image not yet listed
appends without re-sorting. -/
theorem C8_edit_image_untagged_invariant
    (md : MetadataData) (name : String) (data : EditData)
    (hs : isSortedLe md.untagged = true) (hnd : md.untagged.Nodup) :
    ((editImage md name data).1.untagged.Nodup) ∧
    ((data.product = none ∨ (∃ s, data.product = some (some s)) ∨
        name ∈ md.untagged) →
      isSortedLe (editImage md name data).1.untagged = true) := by
  unfold editImage
  cases hl : md.images.lookup name with
  | none => exact ⟨hnd, fun _ => hs⟩
  | some image =>
    dsimp only
    cases hp : data.product with
    | none => exact ⟨hnd, fun _ => hs⟩
    | some np =>
      dsimp only
      cases np with
      | none =>
        have finishNone : ∀ (md2 : MetadataData), md2.untagged = md.untagged →
            (if md2.untagged.contains name then md2
              else { md2 with untagged := md2.untagged ++ [name] }).untagged.Nodup ∧
            ((some (none : Option String) = none ∨
                (∃ s, some (none : Option String) = some (some s)) ∨
                name ∈ md.untagged) →
              isSortedLe (if md2.untagged.contains name then md2
                else { md2 with untagged := md2.untagged ++ [name] }).untagged =
                true) := by
          intro md2 hu
          cases hcon : md2.untagged.contains name with
          | true => rw [if_pos rfl]; exact ⟨hu ▸ hnd, fun _ => hu ▸ hs⟩
          | false =>
            rw [if_neg (fun hh : false = true => nomatch hh)]
            dsimp only
            have hnm : name ∉ md.untagged := by
              rw [← hu]
              simpa [List.contains, List.elem_eq_mem] using hcon
            refine ⟨?_, ?_⟩
            · rw [hu]; exact nodup_append_single hnd hnm
            · intro hdisj
              rcases hdisj with h1 | ⟨s, h2⟩ | h3
              · exact (nomatch h1)
              · simp at h2
              · exact absurd h3 hnm
        cases ht : truthyStr image.product with
        | true =>
          rw [if_pos rfl]
          cases hs1 : updateProductCount md image.content_type
              (image.product.getD "") false with
          | error e => exact ⟨hnd, fun _ => hs⟩
          | ok md1 =>
            dsimp only
            obtain ⟨_, hu1, _⟩ := updateProductCount_ok_parts hs1
            rw [if_neg (fun hh : truthyStr none = true => (nomatch hh))]
            dsimp only
            exact finishNone md1 hu1
        | false =>
          rw [if_neg (fun hh : false = true => nomatch hh)]
          dsimp only
          rw [if_neg (fun hh : truthyStr none = true => (nomatch hh))]
          dsimp only
          exact finishNone md rfl
      | some s =>
        have finishSome : ∀ (md2 : MetadataData), md2.untagged = md.untagged →
            ({ md2 with
                untagged := md2.untagged.filter (· != name) }).untagged.Nodup ∧
            ((some (some s) = none ∨
                (∃ s2, some (some s) = some (some s2)) ∨
                name ∈ md.untagged) →
              isSortedLe ({ md2 with
                untagged := md2.untagged.filter (· != name) }).untagged =
                true) := by
          intro md2 hu
          dsimp only
          rw [hu]
          exact ⟨hnd.filter _, fun _ => isSortedLe_filter _ _ hs⟩
        cases ht : truthyStr image.product with
        | true =>
          rw [if_pos rfl]
          cases hs1 : updateProductCount md image.content_type
              (image.product.getD "") false with
          | error e => exact ⟨hnd, fun _ => hs⟩
          | ok md1 =>
            dsimp only
            obtain ⟨_, hu1, _⟩ := updateProductCount_ok_parts hs1
            cases hts : truthyStr (some s) with
            | true =>
              rw [if_pos rfl]
              cases hs2 : updateProductCount md1 image.content_type
                  ((some s).getD "") true with
              | error e =>
                exact ⟨by rw [hu1]; exact hnd, fun _ => by rw [hu1]; exact hs⟩
              | ok md2 =>
                dsimp only
                obtain ⟨_, hu2, _⟩ := updateProductCount_ok_parts hs2
                exact finishSome md2 (hu2.trans hu1)
            | false =>
              rw [if_neg (fun hh : false = true => nomatch hh)]
              dsimp only
              exact finishSome md1 hu1
        | false =>
          rw [if_neg (fun hh : false = true => nomatch hh)]
          dsimp only
          cases hts : truthyStr (some s) with
          | true =>
            rw [if_pos rfl]
            cases hs2 : updateProductCount md image.content_type
                ((some s).getD "") true with
            | error e => exact ⟨hnd, fun _ => hs⟩
            | ok md2 =>
              dsimp only
              obtain ⟨_, hu2, _⟩ := updateProductCount_ok_parts hs2
              exact finishSome md2 hu2
          | false =>
            rw [if_neg (fun hh : false = true => nomatch hh)]
            dsimp only
            exact finishSome md rfl

theorem C8_edit_image_untagged_invariant_witness :
    (editImage mdC8 "b.png" edC8b).1.untagged.Nodup ∧
    isSortedLe (editImage mdC8 "b.png" edC8b).1.untagged = true :=
  ⟨(C8_edit_image_untagged_invariant mdC8 "b.png" edC8b rfl (by decide)).1,
   (C8_edit_image_untagged_invariant mdC8 "b.png" edC8b rfl (by decide)).2
     (Or.inr (Or.inl ⟨"x", rfl⟩))⟩
